import Mathlib

/-!
Verification of the personal-finance simulation engine and its period
aggregation layer.

The development shallowly embeds the Python sources
`backend/engine/simulator.py` and `backend/engine/aggregate.py`.

Modelling conventions:
* Python floats are modelled as exact rationals.
* Python `int(round(x))` uses round-half-to-even; `pyRound` reproduces it.
* pandas DataFrames are modelled as a list of field-keyed rows plus the
  list of column names (column order is tracked only as presence).
-/

set_option maxRecDepth 10000

/-- Round-half-to-even, the semantics of Python builtin round on floats. -/
def pyRound (q : ℚ) : ℤ :=
  if q - ⌊q⌋ = 1/2 then (if ⌊q⌋ % 2 = 0 then ⌊q⌋ else ⌊q⌋ + 1) else round q

/-- Does the character list start with the given needle (Python str startswith,
used to build substring containment below). -/
def listStarts : List Char → List Char → Bool
  | [], _ => true
  | _ :: _, [] => false
  | c :: cs, d :: ds => c = d && listStarts cs ds

/-- Substring containment on character lists: Python needle in hay. -/
def listHasSub : List Char → List Char → Bool
  | n, [] => listStarts n []
  | n, d :: ds => listStarts n (d :: ds) || listHasSub n ds

/-- Python needle in hay on strings (substring containment). -/
def strHasSub (hay needle : String) : Bool :=
  listHasSub needle.data hay.data

/-- Account record, from data_model/accounts/items.py (class AccountItem).
Field names follow the source. -/
structure AccountItem where
  name : String
  category : String
  principal : ℚ
  apr : ℚ := 0
  interest_rate : ℚ := 0
  start_year : ℚ := 0
  end_year : ℚ := 0
  end_action : String := "keep"
deriving Repr, DecidableEq, Inhabited

/-- Source: AccountItem.normalized_category — lowercased category. -/
def AccountItem.normalized_category (a : AccountItem) : String :=
  a.category.toLower

/-- Source: AccountItem.monthly_rate — apr takes precedence when non-zero,
else interest_rate; divided by 12. -/
def AccountItem.monthly_rate (a : AccountItem) : ℚ :=
  (if a.apr ≠ 0 then a.apr else a.interest_rate) / 12

/-- Cashflow record, from data_model/cashflow.py (class CashflowItem). -/
structure CashflowItem where
  name : String
  annual_amount : ℚ
  category : String
  start_year : ℚ := 0
  end_year : ℚ := 0
  flow_type : String := "income"
  taxable : Bool := false
  inflation_rate : ℚ := 0
deriving Repr, DecidableEq, Inhabited

/-- Source: CashflowItem.amount_per_month — annual amount divided by 12. -/
def CashflowItem.amount_per_month (c : CashflowItem) : ℚ :=
  c.annual_amount / 12

/-- Plan record, from data_model/plan.py (class PlanConfig). -/
structure PlanConfig where
  name : String
  start_year : ℤ
  years : ℤ
  tax_rate : ℚ := 0
  accounts : List AccountItem := []
  incomes : List CashflowItem := []
  spendings : List CashflowItem := []
  living_inflation_rate : ℚ := 0
deriving Repr, DecidableEq, Inhabited

/-- Per-account working state, the dict built by _build_account_state. -/
structure AccountState where
  item : AccountItem
  value : ℚ
  initial_value : ℚ
  rate_m : ℚ
  start_m : ℤ
  end_m : ℤ
  active : Bool
  completed : Bool
  taxable_investment : Bool
deriving Repr, DecidableEq, Inhabited

/-- Per-cashflow working state, the dict built by _build_cashflow_state. -/
structure CashflowState where
  item : CashflowItem
  start_m : ℤ
  end_m : ℤ
  amount_m : ℚ
  taxable : Bool
  inflation_rate : ℚ
deriving Repr, DecidableEq, Inhabited

/-- Source: simulator._build_account_state. -/
def _build_account_state (item : AccountItem) (n_months : ℕ) : AccountState :=
  let start_m : ℤ := max 0 (pyRound (item.start_year * 12))
  let end_m : ℤ :=
    if item.end_year ≤ 0 then (n_months : ℤ) - 1
    else min (pyRound (item.end_year * 12)) ((n_months : ℤ) - 1)
  let end_m := if end_m < start_m then start_m else end_m
  let initial_value :=
    if item.normalized_category = "debt" then -|item.principal| else item.principal
  { item := item
    value := 0
    initial_value := initial_value
    rate_m := item.monthly_rate
    start_m := start_m
    end_m := end_m
    active := false
    completed := false
    taxable_investment :=
      item.normalized_category = "investment" && !(strHasSub item.name.toLower "hsa") }

/-- Source: simulator._build_cashflow_state. -/
def _build_cashflow_state (item : CashflowItem) (n_months : ℕ) : CashflowState :=
  let start_m : ℤ := max 0 (pyRound (item.start_year * 12))
  let end_m : ℤ :=
    if item.end_year ≤ 0 then (n_months : ℤ) - 1
    else min (pyRound (item.end_year * 12)) ((n_months : ℤ) - 1)
  let end_m := if end_m < start_m then start_m else end_m
  { item := item
    start_m := start_m
    end_m := end_m
    amount_m := item.amount_per_month
    taxable := item.taxable
    inflation_rate := item.inflation_rate }

/-- Source: simulator._ensure_primary_cash.  The Python function returns an
alias of the chosen dict and may insert a virtual cash account at the head of
the list; the model returns the (possibly extended) list together with the
index of the primary cash state. -/
def _ensure_primary_cash (states : List AccountState) (n_months : ℕ) :
    List AccountState × ℕ :=
  match states.findIdx? (fun s => s.item.normalized_category = "cash") with
  | some i => (states, i)
  | none =>
      let virtual_cash : AccountItem :=
        { name := "Cash Reserve", category := "cash", principal := 0, end_year := 0 }
      let cash_state := { _build_account_state virtual_cash n_months with active := true }
      (cash_state :: states, 0)

/-- Simulator working state threaded through the month loop: the account
state list plus the cash buffer. -/
structure SimState where
  states : List AccountState
  buffer : ℚ
deriving Repr, DecidableEq, Inhabited

/-- Activation of one account (simulator.py lines 84-89). -/
def activateOne (m : ℤ) (s : AccountState) : AccountState :=
  if s.completed then s
  else if m ≥ s.start_m ∧ ¬ s.active then
    { s with value := s.initial_value, active := true }
  else s

/-- Activation pass over all accounts. -/
def activateAll (m : ℤ) (states : List AccountState) : List AccountState :=
  states.map (activateOne m)

/-- Taxable investment growth accumulation (simulator.py lines 91-97). -/
def taxableGrowth (m : ℤ) (states : List AccountState) : ℚ :=
  (states.map (fun s =>
    if s.active ∧ ¬ s.completed ∧ m ≤ s.end_m ∧ s.taxable_investment then
      max 0 (s.value * s.rate_m)
    else 0)).sum

/-- Per-month sum of in-window cashflows (_sum_cashflow in simulate_monthly). -/
def sumCashflow (m : ℤ) (flows : List CashflowState) : ℚ :=
  (flows.map (fun f => if f.start_m ≤ m ∧ m ≤ f.end_m then f.amount_m else 0)).sum

/-- Per-month taxable income (simulator.py lines 78-82). -/
def sumTaxableIncome (m : ℤ) (flows : List CashflowState) : ℚ :=
  (flows.map (fun f =>
    if (f.start_m ≤ m ∧ m ≤ f.end_m) ∧ f.taxable then f.amount_m else 0)).sum

/-- Models the Python float power expression (1.0 + rate) ** years_elapsed
from simulator.py line 136.  A fractional exponent has no rational value, so
the model uses the integer part of the exponent; the value is exact whenever
the exponent is a whole number of years.  The source short-circuits to 1.0
when the rate is zero, before this expression is evaluated, and every input
considered in this development has inflation rate zero, so no claim below
depends on the fractional-exponent case. -/
def floatPow (base expo : ℚ) : ℚ :=
  base ^ ⌊expo⌋

/-- Total spending accumulation with inflation (simulator.py lines 131-137). -/
def spendingThisMonth (m : ℤ) (flows : List CashflowState) : ℚ :=
  (flows.map (fun f =>
    if f.start_m ≤ m ∧ m ≤ f.end_m then
      let years_elapsed : ℚ := max 0 ((m - f.start_m : ℤ) / (12 : ℚ))
      let rate := f.inflation_rate
      let multiplier := if rate = 0 then 1 else floatPow (1 + rate) years_elapsed
      f.amount_m * multiplier
    else 0)).sum

/-- Cash application (simulator.py lines 103-108): if the primary cash
account is active, flush the buffer and add the net cash flow to its balance,
else accumulate the net cash flow into the buffer.  An out-of-range primary
index cannot arise in simulate_monthly; the model then buffers. -/
def applyCash (pIdx : ℕ) (net : ℚ) (st : SimState) : SimState :=
  match st.states[pIdx]? with
  | none => { st with buffer := st.buffer + net }
  | some pc =>
      if pc.active then
        { states := st.states.set pIdx { pc with value := pc.value + st.buffer + net }
          buffer := 0 }
      else { st with buffer := st.buffer + net }

/-- Monthly compounding of one account (simulator.py lines 110-114). -/
def compoundOne (m : ℤ) (s : AccountState) : AccountState :=
  if s.active ∧ ¬ s.completed ∧ m ≤ s.end_m then
    { s with value := s.value * (1 + s.rate_m) }
  else s

/-- Compounding pass over all accounts. -/
def compoundAll (m : ℤ) (states : List AccountState) : List AccountState :=
  states.map (compoundOne m)

/-- End-of-window disposition of the account at index i (simulator.py lines
116-129).  Liquidation first deposits into the primary cash state, then
zeroes and completes the processed state; when the processed account is the
primary cash itself the second write overwrites the deposit, as in the
source, where both names alias one dict. -/
def disposeOne (pIdx : ℕ) (m : ℤ) (states : List AccountState) (i : ℕ) :
    List AccountState :=
  match states[i]? with
  | none => states
  | some s =>
      if s.active ∧ m = s.end_m then
        if s.item.end_action = "liquidate_to_cash" then
          let states1 :=
            match states[pIdx]? with
            | none => states
            | some pc => states.set pIdx { pc with value := pc.value + s.value }
          match states1[i]? with
          | none => states1
          | some s1 =>
              states1.set i { s1 with value := 0, active := false, completed := true }
        else if s.item.end_action = "drop" then
          states.set i { s with value := 0, active := false, completed := true }
        else
          states.set i { s with rate_m := 0 }
      else states

/-- Disposition pass: the source iterates over the account list in order,
mutating elements in place; the model folds over the indices. -/
def disposeAll (pIdx : ℕ) (m : ℤ) (states : List AccountState) : List AccountState :=
  (List.range states.length).foldl (disposeOne pIdx m) states

/-- Pad a month number to two digits, the :02d format of the month label. -/
def pad2 (n : ℕ) : String :=
  if n < 10 then "0" ++ toString n else toString n

/-- One output row of simulate_monthly (the snapshot dict).  The per-account
balances are kept as a name-value list in account order; the source stores
them as dict keys, which coincides for plans with distinct account names. -/
structure Snapshot where
  Scenario : String
  MonthIndex : ℕ
  Month : String
  CalendarYear : ℤ
  MonthInYear : ℕ
  TotalIncome : ℚ
  TotalSpending : ℚ
  TaxableIncome : ℚ
  TaxableInvestmentGrowth : ℚ
  TaxableBase : ℚ
  TotalTax : ℚ
  NetCashflow : ℚ
  accountValues : List (String × ℚ)
  Liquid : ℚ
  NetWorth : ℚ
deriving Repr, DecidableEq, Inhabited

/-- Horizon in months: max(1, years * 12). -/
def nMonths (cfg : PlanConfig) : ℕ :=
  (max 1 (cfg.years * 12)).toNat

/-- Account states built from the plan, before the primary-cash fallback. -/
def initAccounts (cfg : PlanConfig) : List AccountState :=
  cfg.accounts.map (fun a => _build_account_state a (nMonths cfg))

/-- Account state list and primary cash index used by the simulation. -/
def initStates (cfg : PlanConfig) : List AccountState × ℕ :=
  _ensure_primary_cash (initAccounts cfg) (nMonths cfg)

/-- Index of the primary cash account inside the simulated state list. -/
def primaryIdx (cfg : PlanConfig) : ℕ :=
  (initStates cfg).2

/-- Income working states of the plan. -/
def incomeStates (cfg : PlanConfig) : List CashflowState :=
  cfg.incomes.map (fun c => _build_cashflow_state c (nMonths cfg))

/-- Spending working states of the plan. -/
def spendingStates (cfg : PlanConfig) : List CashflowState :=
  cfg.spendings.map (fun c => _build_cashflow_state c (nMonths cfg))

/-- One iteration of the month loop of simulate_monthly (lines 67-171),
returning the updated working state and the emitted snapshot.  Statements
appear in source order; in particular total_spending is still the 0.0 of
line 77 when net_cashflow is computed on line 101, and the spending
accumulation loop of lines 131-137 only runs afterwards. -/
def stepMonth (cfg : PlanConfig) (pIdx : ℕ) (incomes spendings : List CashflowState)
    (m : ℕ) (st : SimState) : SimState × Snapshot :=
  let mz : ℤ := m
  let year_num := m / 12
  let month_in_year := m % 12 + 1
  let calendar_year := cfg.start_year + year_num
  let month_label := toString calendar_year ++ "-" ++ pad2 month_in_year
  let total_income := sumCashflow mz incomes
  let total_spending0 : ℚ := 0
  let taxable_income := sumTaxableIncome mz incomes
  let states1 := activateAll mz st.states
  let taxable_investment_growth := taxableGrowth mz states1
  let taxable_base := taxable_income + taxable_investment_growth
  let tax_amount := taxable_base * cfg.tax_rate
  let net_cashflow := total_income - total_spending0 - tax_amount
  let st2 := applyCash pIdx net_cashflow { states := states1, buffer := st.buffer }
  let states3 := compoundAll mz st2.states
  let states4 := disposeAll pIdx mz states3
  let total_spending := total_spending0 + spendingThisMonth mz spendings
  let total_assets := (states4.map (fun s => if 0 ≤ s.value then s.value else 0)).sum
  let total_debt := (states4.map (fun s => if 0 ≤ s.value then 0 else s.value)).sum
  let liquid_total := (states4.map (fun s =>
    if s.item.normalized_category = "cash" ∨ s.item.normalized_category = "investment"
    then s.value else 0)).sum
  let snap : Snapshot :=
    { Scenario := cfg.name
      MonthIndex := m
      Month := month_label
      CalendarYear := calendar_year
      MonthInYear := month_in_year
      TotalIncome := total_income
      TotalSpending := total_spending
      TaxableIncome := taxable_income
      TaxableInvestmentGrowth := taxable_investment_growth
      TaxableBase := taxable_base
      TotalTax := tax_amount
      NetCashflow := net_cashflow
      accountValues := states4.map (fun s => (s.item.name, s.value))
      Liquid := liquid_total
      NetWorth := total_assets + total_debt }
  ({ states := states4, buffer := st2.buffer }, snap)

/-- The month loop, by remaining fuel: months m, m+1, ... . -/
def simFrom (cfg : PlanConfig) (pIdx : ℕ) (incomes spendings : List CashflowState) :
    ℕ → ℕ → SimState → List Snapshot
  | 0, _, _ => []
  | fuel + 1, m, st =>
      let r := stepMonth cfg pIdx incomes spendings m st
      r.2 :: simFrom cfg pIdx incomes spendings fuel (m + 1) r.1

/-- Source: simulator.simulate_monthly.  Returns the list of monthly
snapshots (the rows of the returned DataFrame). -/
def simulate_monthly (cfg : PlanConfig) : List Snapshot :=
  simFrom cfg (primaryIdx cfg) (incomeStates cfg) (spendingStates cfg)
    (nMonths cfg) 0 { states := (initStates cfg).1, buffer := 0 }

/-- Working state at the start of month m of the simulation run (the loop
state after m iterations). -/
def stateAt (cfg : PlanConfig) : ℕ → SimState
  | 0 => { states := (initStates cfg).1, buffer := 0 }
  | m + 1 =>
      (stepMonth cfg (primaryIdx cfg) (incomeStates cfg) (spendingStates cfg) m
        (stateAt cfg m)).1

/-- The disposition transform of the processed account itself, excluding the
deposit made into the primary cash account: what disposeOne writes back at
the processed index when that index is not the primary cash index. -/
def localDispose (m : ℤ) (s : AccountState) : AccountState :=
  if s.active ∧ m = s.end_m then
    if s.item.end_action = "liquidate_to_cash" then
      { s with value := 0, active := false, completed := true }
    else if s.item.end_action = "drop" then
      { s with value := 0, active := false, completed := true }
    else
      { s with rate_m := 0 }
  else s

/-- The transition an account not aliased to the primary cash undergoes in
one month: activation, compounding, own disposition — and no deposits. -/
def localStep (m : ℤ) (s : AccountState) : AccountState :=
  localDispose m (compoundOne m (activateOne m s))

/-- Net cash flow computed during month m of the run, exactly as on source
line 101 (total_spending is still 0.0 there). -/
def netAt (cfg : PlanConfig) (m : ℕ) : ℚ :=
  sumCashflow (m : ℤ) (incomeStates cfg) - 0 -
    (sumTaxableIncome (m : ℤ) (incomeStates cfg) +
      taxableGrowth (m : ℤ) (activateAll (m : ℤ) (stateAt cfg m).states)) * cfg.tax_rate

/-- Account states of month m right before the disposition pass (after
activation, cash application and compounding). -/
def statesPreDispose (cfg : PlanConfig) (m : ℕ) : List AccountState :=
  compoundAll (m : ℤ)
    (applyCash (primaryIdx cfg) (netAt cfg m)
      { states := activateAll (m : ℤ) (stateAt cfg m).states
        buffer := (stateAt cfg m).buffer }).states

/-- Balance recorded at an index of an account state list (0 off the end). -/
def valAt (states : List AccountState) (i : ℕ) : ℚ :=
  ((states[i]?).map AccountState.value).getD 0

/-- Consistency of the taxable-investment flag with the item it was computed
from in _build_account_state. -/
def FlagOK (s : AccountState) : Prop :=
  s.taxable_investment =
    (decide (s.item.normalized_category = "investment") &&
      !(strHasSub s.item.name.toLower "hsa"))

/-- Taxable investment growth written the way the specification states it: a
sum over the accounts that are active, not completed, whose window still
includes this month, whose category is investment and whose name does not
contain the substring hsa, of max 0 (balance times monthly rate). -/
def taxableGrowthSpec (m : ℤ) (states : List AccountState) : ℚ :=
  ((states.filter (fun s =>
      s.active && !s.completed && decide (m ≤ s.end_m) &&
      decide (s.item.normalized_category = "investment") &&
      !(strHasSub s.item.name.toLower "hsa"))).map
    (fun s => max 0 (s.value * s.rate_m))).sum

/-!
Aggregation layer, embedding backend/engine/aggregate.py.

A pandas DataFrame is modelled as a list of rows plus the list of column
names; a row carries the four required typed columns, the optional Month
label, the two derived period columns, and an opaque payload standing for
all remaining columns.  Column order is modelled as presence only; rows are
field-keyed, so reordering of columns is not observable.
-/

/-- One row of an aggregation input or output table. -/
structure Row (α : Type) where
  Scenario : String
  MonthIndex : ℤ
  CalendarYear : ℤ
  MonthInYear : ℤ
  Month : String := ""
  Period : String := ""
  PeriodValue : ℤ := 0
  payload : α
deriving Repr, DecidableEq, Inhabited

/-- A table: column names plus rows. -/
structure DataFrame (α : Type) where
  cols : List String
  rows : List (Row α)
deriving Repr, DecidableEq, Inhabited

/-- Source: aggregate.REQUIRED_COLUMNS (a set; listed here sorted, the order
in which the error message would name missing ones). -/
def REQUIRED_COLUMNS : List String :=
  ["CalendarYear", "MonthInYear", "MonthIndex", "Scenario"]

/-- Column assignment:  pandas keeps the position of an existing column and
appends a new one; with order-as-presence this is membership-conditional
append. -/
def addCol (cols : List String) (c : String) : List String :=
  if c ∈ cols then cols else cols ++ [c]

/-- Sort key order of _prepare: by Scenario, then MonthIndex, ascending. -/
def rowLe {α : Type} (r s : Row α) : Prop :=
  r.Scenario < s.Scenario ∨ (r.Scenario = s.Scenario ∧ r.MonthIndex ≤ s.MonthIndex)

instance {α : Type} : DecidableRel (@rowLe α) := fun r s => by
  unfold rowLe; infer_instance

instance {α : Type} : IsTotal (Row α) rowLe := by
  constructor
  intro a b
  rcases lt_trichotomy a.Scenario b.Scenario with h | h | h
  · exact Or.inl (Or.inl h)
  · rcases le_total a.MonthIndex b.MonthIndex with h2 | h2
    · exact Or.inl (Or.inr ⟨h, h2⟩)
    · exact Or.inr (Or.inr ⟨h.symm, h2⟩)
  · exact Or.inr (Or.inl h)

instance {α : Type} : IsTrans (Row α) rowLe := by
  constructor
  intro a b c hab hbc
  rcases hab with h1 | ⟨h1, h1m⟩ <;> rcases hbc with h2 | ⟨h2, h2m⟩
  · exact Or.inl (h1.trans h2)
  · exact Or.inl (h2 ▸ h1)
  · exact Or.inl (h1 ▸ h2)
  · exact Or.inr ⟨h1.trans h2, h1m.trans h2m⟩

/-- Source: aggregate._prepare — require the four key columns and sort by
(Scenario, MonthIndex). -/
def _prepare {α : Type} (df : DataFrame α) : Except String (DataFrame α) :=
  let missing := REQUIRED_COLUMNS.filter (fun c => c ∉ df.cols)
  if missing ≠ [] then
    Except.error ("Missing required columns: " ++ String.intercalate ", " missing)
  else
    Except.ok { df with rows := List.insertionSort rowLe df.rows }

/-- Group key of the groupby of aggregate_period: (Scenario, PeriodValue). -/
def keyOf {α : Type} (r : Row α) : String × ℤ := (r.Scenario, r.PeriodValue)

/-- Order on group keys: pandas sorts groups ascending. -/
def keyLe (a b : String × ℤ) : Prop :=
  a.1 < b.1 ∨ (a.1 = b.1 ∧ a.2 ≤ b.2)

instance : DecidableRel keyLe := fun a b => by
  unfold keyLe; infer_instance

instance : IsTotal (String × ℤ) keyLe := by
  constructor
  intro a b
  rcases lt_trichotomy a.1 b.1 with h | h | h
  · exact Or.inl (Or.inl h)
  · rcases le_total a.2 b.2 with h2 | h2
    · exact Or.inl (Or.inr ⟨h, h2⟩)
    · exact Or.inr (Or.inr ⟨h.symm, h2⟩)
  · exact Or.inr (Or.inl h)

instance : IsTrans (String × ℤ) keyLe := by
  constructor
  intro a b c hab hbc
  rcases hab with h1 | ⟨h1, h1m⟩ <;> rcases hbc with h2 | ⟨h2, h2m⟩
  · exact Or.inl (h1.trans h2)
  · exact Or.inl (h2 ▸ h1)
  · exact Or.inl (h1 ▸ h2)
  · exact Or.inr ⟨h1.trans h2, h1m.trans h2m⟩

/-- The groupby([Scenario, PeriodValue], as_index=False).last() reduction:
group keys in ascending order, and for each key the last row of that group
in the current row order. -/
def groupLast {α : Type} (rows : List (Row α)) : List (Row α) :=
  let keys := List.insertionSort keyLe (rows.map keyOf).dedup
  keys.filterMap (fun k => (rows.filter (fun r => keyOf r = k)).getLast?)

/-- Quarterly period columns (aggregate.py lines 22-24): PeriodValue is
MonthIndex // 3 (Python floor division), Period is the calendar year and
quarter-of-year label. -/
def decorateQ {α : Type} (r : Row α) : Row α :=
  let pv := Int.fdiv r.MonthIndex 3
  let quarter := Int.fdiv (r.MonthInYear - 1) 3 + 1
  { r with PeriodValue := pv
           Period := toString r.CalendarYear ++ " Q" ++ toString quarter }

/-- Yearly period columns (aggregate.py lines 28-29). -/
def decorateY {α : Type} (r : Row α) : Row α :=
  { r with PeriodValue := Int.fdiv r.MonthIndex 12
           Period := toString r.CalendarYear }

/-- Monthly period columns (aggregate.py lines 32-33); the Period label
falls back to the month index rendered as a string when the Month column is
absent (df.get). -/
def decorateM {α : Type} (hasMonth : Bool) (r : Row α) : Row α :=
  { r with PeriodValue := r.MonthIndex
           Period := if hasMonth then r.Month else toString r.MonthIndex }

/-- Source: aggregate.aggregate_period.  Empty input is returned unchanged
before any validation; then the frequency string is defaulted and
upper-cased, the required columns are checked and rows sorted, the period
columns are assigned, and for Q and Y the last row per (Scenario,
PeriodValue) group is kept. -/
def aggregate_period {α : Type} (df : DataFrame α) (freq : String) :
    Except String (DataFrame α) :=
  if df.rows.isEmpty then Except.ok df
  else
    let freq := (if freq = "" then "M" else freq).toUpper
    match _prepare df with
    | Except.error e => Except.error e
    | Except.ok df1 =>
        let cols2 := addCol (addCol df1.cols "PeriodValue") "Period"
        if freq = "Q" then
          Except.ok { cols := cols2, rows := groupLast (df1.rows.map decorateQ) }
        else if freq = "Y" then
          Except.ok { cols := cols2, rows := groupLast (df1.rows.map decorateY) }
        else
          Except.ok { cols := cols2
                      rows := df1.rows.map (decorateM (df1.cols.contains "Month")) }

/-- Snapshot at a month index of a run (defaulted when out of range; every
use below is accompanied by the relevant length fact). -/
def snapAt (cfg : PlanConfig) (i : ℕ) : Snapshot :=
  (simulate_monthly cfg).getD i default

/-!
Concrete plans and tables used to witness or refute individual claims.
-/

/-- The end-to-end example plan of the specification: one cash account with
principal 1000 and zero rate, one fully taxable salary of 12000 per year,
flat tax rate 0.25, horizon one year. -/
def cfgEndToEnd : PlanConfig :=
  { name := "base"
    start_year := 2024
    years := 1
    tax_rate := 1/4
    accounts := [{ name := "Cash", category := "cash", principal := 1000 }]
    incomes := [{ name := "salary", annual_amount := 12000, category := "salary",
                  taxable := true }] }

/-- A plan with spending: income 12000 per year (not taxable), spending 1200
per year with zero inflation, a zero-principal cash account, no tax. -/
def cfgSpend : PlanConfig :=
  { name := "spendplan"
    start_year := 2024
    years := 1
    tax_rate := 0
    accounts := [{ name := "Cash", category := "cash", principal := 0 }]
    incomes := [{ name := "job", annual_amount := 12000, category := "salary" }]
    spendings := [{ name := "living", annual_amount := 1200, category := "living",
                    flow_type := "spending" }] }

/-- A plan whose single account is a cash account with end action keep whose
window closes at month 1, while untaxed income keeps flowing in. -/
def cfgKeepCash : PlanConfig :=
  { name := "keepcash"
    start_year := 2024
    years := 1
    tax_rate := 0
    accounts := [{ name := "Cash", category := "cash", principal := 1000,
                   end_year := 1/12 }]
    incomes := [{ name := "job", annual_amount := 12000, category := "salary" }] }

/-- A plan whose single account is a cash account that liquidates to cash at
its end month (month 0): the account is its own liquidation target. -/
def cfgSelfLiq : PlanConfig :=
  { name := "selfliq"
    start_year := 2024
    years := 0
    tax_rate := 0
    accounts := [{ name := "Cash", category := "cash", principal := 1000,
                   end_action := "liquidate_to_cash" }] }

/-- A two-account plan: a primary cash account and an investment certificate
with end action keep that ends at month 1 with zero rate, plus steady
untaxed income; used to witness the frozen-balance theorem. -/
def cfgKeepOther : PlanConfig :=
  { name := "keepother"
    start_year := 2024
    years := 1
    tax_rate := 0
    accounts := [{ name := "Cash", category := "cash", principal := 1000 },
                 { name := "cd", category := "investment", principal := 500,
                   end_year := 1/12 }]
    incomes := [{ name := "job", annual_amount := 12000, category := "salary" }] }

/-- A plan with two cash accounts and one investment account that liquidates
at month 0; used to witness the primary-cash-sink theorem. -/
def cfgTwoCash : PlanConfig :=
  { name := "twocash"
    start_year := 2024
    years := 1
    tax_rate := 0
    accounts := [{ name := "Main Cash", category := "cash", principal := 100 },
                 { name := "Side Cash", category := "cash", principal := 200 },
                 { name := "fund", category := "investment", principal := 300,
                   end_year := 1/24, end_action := "liquidate_to_cash" }] }

/-- A plan with a taxable investment account and an hsa account, used to
witness the taxable-growth theorem. -/
def cfgInvest : PlanConfig :=
  { name := "invest"
    start_year := 2024
    years := 1
    tax_rate := 1/10
    accounts := [{ name := "Cash", category := "cash", principal := 100 },
                 { name := "Index Fund", category := "investment",
                   principal := 10000, apr := 12/100 },
                 { name := "My HSA", category := "investment", principal := 2000,
                   apr := 12/100 }] }

/-- Six months of one scenario, January through June 2024, with a numeric
payload distinguishing the rows; used for the quarterly aggregation
witnesses. -/
def dfSixMonths : DataFrame ℤ :=
  { cols := ["Scenario", "MonthIndex", "Month", "CalendarYear", "MonthInYear",
             "NetWorth"]
    rows := (List.range 6).map (fun i =>
      { Scenario := "base"
        MonthIndex := (i : ℤ)
        CalendarYear := 2024
        MonthInYear := (i : ℤ) + 1
        Month := "2024-0" ++ toString (i + 1)
        payload := (100 : ℤ) * i }) }

/-- A concrete primary-cash state used by witnesses. -/
def stCashW : AccountState :=
  { item := { name := "Cash", category := "cash", principal := 50 }
    value := 50
    initial_value := 50
    rate_m := 0
    start_m := 0
    end_m := 11
    active := true
    completed := false
    taxable_investment := false }

/-- A concrete liquidating investment state used by witnesses. -/
def stFundW : AccountState :=
  { item := { name := "fund", category := "investment", principal := 70,
              end_action := "liquidate_to_cash" }
    value := 70
    initial_value := 70
    rate_m := 0
    start_m := 0
    end_m := 3
    active := true
    completed := false
    taxable_investment := true }

/-- The built working state of the cd account of cfgKeepOther. -/
def stCdW : AccountState :=
  { item := { name := "cd", category := "investment", principal := 500,
              end_year := 1/12 }
    value := 0
    initial_value := 500
    rate_m := 0
    start_m := 0
    end_m := 1
    active := false
    completed := false
    taxable_investment := true }

/-- A non-empty table missing the MonthIndex column. -/
def dfMissing : DataFrame ℤ :=
  { cols := ["Scenario", "CalendarYear", "MonthInYear"]
    rows := [{ Scenario := "base", MonthIndex := 0, CalendarYear := 2024,
               MonthInYear := 1, payload := 0 }] }

/-!
General lemmas about the simulation loop.
-/

theorem simFrom_length (cfg : PlanConfig) (p : ℕ) (inc sp : List CashflowState) :
    ∀ (fuel m : ℕ) (st : SimState), (simFrom cfg p inc sp fuel m st).length = fuel := by
  intro fuel
  induction fuel with
  | zero => intro m st; rfl
  | succ n ih => intro m st; simpa [simFrom] using ih (m + 1) _

theorem simFrom_monthIndex (cfg : PlanConfig) (p : ℕ) (inc sp : List CashflowState) :
    ∀ (fuel m i : ℕ) (st : SimState), i < fuel →
      ((simFrom cfg p inc sp fuel m st).get? i).map Snapshot.MonthIndex = some (m + i) := by
  intro fuel
  induction fuel with
  | zero => intro m i st h; omega
  | succ n ih =>
      intro m i st h
      cases i with
      | zero => simp [simFrom, stepMonth]
      | succ j =>
          have := ih (m + 1) j ((stepMonth cfg p inc sp m st).1) (by omega)
          simpa [simFrom, Nat.add_assoc, Nat.add_comm 1 j] using this

/-- The working state reached after m+1 months, phase by phase. -/
theorem stateAt_succ_states (cfg : PlanConfig) (m : ℕ) :
    (stateAt cfg (m + 1)).states =
      disposeAll (primaryIdx cfg) (m : ℤ) (statesPreDispose cfg m) := rfl

/-- Snapshots of the run are the stepMonth outputs at the iterated states. -/
theorem simulate_get?_eq (cfg : PlanConfig) :
    ∀ (fuel k i : ℕ), i < fuel → fuel + k = nMonths cfg →
      (simFrom cfg (primaryIdx cfg) (incomeStates cfg) (spendingStates cfg)
          fuel k (stateAt cfg k)).get? i =
        some ((stepMonth cfg (primaryIdx cfg) (incomeStates cfg) (spendingStates cfg)
          (k + i) (stateAt cfg (k + i))).2) := by
  intro fuel
  induction fuel with
  | zero => intro k i h; omega
  | succ n ih =>
      intro k i h hk
      cases i with
      | zero => simp [simFrom, stateAt]
      | succ j =>
          have hst : (stepMonth cfg (primaryIdx cfg) (incomeStates cfg)
              (spendingStates cfg) k (stateAt cfg k)).1 = stateAt cfg (k + 1) := rfl
          have := ih (k + 1) j (by omega) (by omega)
          rw [simFrom]
          simpa [hst, Nat.add_assoc, Nat.add_comm 1 j] using this

/-- Snapshot i of the run, for i inside the horizon. -/
theorem simulate_get? (cfg : PlanConfig) (i : ℕ) (h : i < nMonths cfg) :
    (simulate_monthly cfg).get? i =
      some ((stepMonth cfg (primaryIdx cfg) (incomeStates cfg) (spendingStates cfg)
        i (stateAt cfg i)).2) := by
  have h0 : stateAt cfg 0 = { states := (initStates cfg).1, buffer := 0 } := rfl
  have := simulate_get?_eq cfg (nMonths cfg) 0 i h (by omega)
  simpa [simulate_monthly, h0] using this

/-- The account section of snapshot i is read off the post-disposition
state list of month i. -/
theorem simulate_accountValues (cfg : PlanConfig) (i : ℕ) (h : i < nMonths cfg) :
    ((simulate_monthly cfg).get? i).map Snapshot.accountValues =
      some ((stateAt cfg (i + 1)).states.map (fun s => (s.item.name, s.value))) := by
  rw [simulate_get? cfg i h]
  rfl

/-- Claim C1 (code bug evidence): on a plan with spending 1200 per year the
month-0 snapshot has TotalSpending = 100 but NetCashflow = 1000 = income,
because the source computes net cash flow while total_spending is still the
initial 0.0, and that spending-less net is what reaches the cash account. -/
theorem net_cashflow_omits_spending_at_failing_input :
    (simulate_monthly cfgSpend).length = 12 ∧
    (snapAt cfgSpend 0).TotalIncome = 1000 ∧
    (snapAt cfgSpend 0).TotalSpending = 100 ∧
    (snapAt cfgSpend 0).TotalTax = 0 ∧
    (snapAt cfgSpend 0).NetCashflow = 1000 ∧
    (snapAt cfgSpend 0).accountValues = [("Cash", 1000)] ∧
    (snapAt cfgSpend 0).NetCashflow ≠
      (snapAt cfgSpend 0).TotalIncome - (snapAt cfgSpend 0).TotalSpending -
        (snapAt cfgSpend 0).TotalTax := by
  with_unfolding_all exact ⟨rfl, rfl, rfl, rfl, rfl, rfl, by decide⟩

/-- Claim C2: the end-to-end example. -/
theorem end_to_end_example_holds :
    (simulate_monthly cfgEndToEnd).length = 12 ∧
    (snapAt cfgEndToEnd 0).TotalIncome = 1000 ∧
    (snapAt cfgEndToEnd 0).TaxableIncome = 1000 ∧
    (snapAt cfgEndToEnd 0).TotalTax = 250 ∧
    (snapAt cfgEndToEnd 0).NetCashflow = 750 ∧
    (snapAt cfgEndToEnd 0).accountValues = [("Cash", 1750)] ∧
    (snapAt cfgEndToEnd 11).accountValues = [("Cash", 10000)] := by
  with_unfolding_all exact ⟨rfl, rfl, rfl, rfl, rfl, rfl, rfl⟩

/-- Claim C3 counterexample: the single account of cfgKeepCash has end action
keep and end month 1, yet its recorded balance changes from 3000 at month 1
to 4000 at month 2, because it is the primary cash account and keeps
receiving the monthly net cash flow. -/
theorem keep_frozen_fails_for_primary_cash :
    ((initStates cfgKeepCash).1.get? 0).map (fun s => (s.item.end_action, s.end_m)) =
      some ("keep", 1) ∧
    primaryIdx cfgKeepCash = 0 ∧
    (simulate_monthly cfgKeepCash).length = 12 ∧
    (snapAt cfgKeepCash 1).accountValues = [("Cash", 3000)] ∧
    (snapAt cfgKeepCash 2).accountValues = [("Cash", 4000)] ∧
    ((4000 : ℚ)) ≠ 3000 := by
  with_unfolding_all exact ⟨rfl, rfl, rfl, rfl, rfl, by decide⟩

/-- Claim C4 counterexample: in cfgSelfLiq the liquidating account is the
primary cash account itself; its pre-disposition balance is 1000 and the
post-disposition balance of both it and the primary cash (the same account)
is 0, so no reading of the conservation sum is preserved. -/
theorem liquidation_self_not_conserved :
    primaryIdx cfgSelfLiq = 0 ∧
    ((statesPreDispose cfgSelfLiq 0).get? 0).map
        (fun s => (s.item.end_action, s.active, s.end_m, s.value)) =
      some ("liquidate_to_cash", true, 0, 1000) ∧
    valAt (disposeAll (primaryIdx cfgSelfLiq) 0 (statesPreDispose cfgSelfLiq 0)) 0 = 0 ∧
    valAt (disposeAll (primaryIdx cfgSelfLiq) 0 (statesPreDispose cfgSelfLiq 0)) 0 +
        valAt (disposeAll (primaryIdx cfgSelfLiq) 0 (statesPreDispose cfgSelfLiq 0)) 0 ≠
      valAt (statesPreDispose cfgSelfLiq 0) 0 + valAt (statesPreDispose cfgSelfLiq 0) 0 ∧
    valAt (disposeAll (primaryIdx cfgSelfLiq) 0 (statesPreDispose cfgSelfLiq 0)) 0 ≠
      valAt (statesPreDispose cfgSelfLiq 0) 0 ∧
    (simulate_monthly cfgSelfLiq).length = 1 ∧
    (snapAt cfgSelfLiq 0).accountValues = [("Cash", 0)] ∧
    (snapAt cfgSelfLiq 0).NetWorth = 0 := by
  with_unfolding_all exact ⟨rfl, rfl, rfl, by decide, by decide, rfl, rfl, rfl⟩

/-- Claim C5: the run has max(1, years*12) snapshots, and snapshot i carries
month index i. -/
theorem simulate_month_count (cfg : PlanConfig) :
    ((simulate_monthly cfg).length : ℤ) = max 1 (cfg.years * 12) ∧
    ∀ i, i < (simulate_monthly cfg).length →
      ((simulate_monthly cfg).get? i).map Snapshot.MonthIndex = some i := by
  have hlen : (simulate_monthly cfg).length = nMonths cfg :=
    simFrom_length cfg _ _ _ _ _ _
  constructor
  · rw [hlen]
    have : (0:ℤ) ≤ max 1 (cfg.years * 12) := le_trans zero_le_one (le_max_left _ _)
    simp [nMonths, Int.toNat_of_nonneg this]
  · intro i hi
    have := simFrom_monthIndex cfg (primaryIdx cfg) (incomeStates cfg)
      (spendingStates cfg) (nMonths cfg) 0 i
      { states := (initStates cfg).1, buffer := 0 } (hlen ▸ hi)
    simpa [simulate_monthly] using this

/-- Claim C5 witness at the end-to-end plan, month 3. -/
theorem simulate_month_count_witness :
    ((simulate_monthly cfgEndToEnd).length : ℤ) = max 1 (cfgEndToEnd.years * 12) ∧
    ((simulate_monthly cfgEndToEnd).get? 3).map Snapshot.MonthIndex = some 3 :=
  ⟨(simulate_month_count cfgEndToEnd).1,
   (simulate_month_count cfgEndToEnd).2 3 (by with_unfolding_all decide)⟩

/-!
Per-index behaviour of the month phases.
-/

theorem activateAll_getElem (m : ℤ) (sts : List AccountState) (k : ℕ) :
    (activateAll m sts)[k]? = (sts[k]?).map (activateOne m) :=
  List.getElem?_map _ _ _

theorem compoundAll_getElem (m : ℤ) (sts : List AccountState) (k : ℕ) :
    (compoundAll m sts)[k]? = (sts[k]?).map (compoundOne m) :=
  List.getElem?_map _ _ _

theorem applyCash_states_getElem_ne (p : ℕ) (net : ℚ) (st : SimState) (k : ℕ)
    (hk : k ≠ p) : (applyCash p net st).states[k]? = st.states[k]? := by
  unfold applyCash
  cases h : st.states[p]? with
  | none => rfl
  | some pc =>
      by_cases ha : pc.active = true
      · simp [ha, List.getElem?_set_ne (Ne.symm hk)]
      · simp [ha]


theorem disposeOne_getElem_ne (p : ℕ) (m : ℤ) (sts : List AccountState) (i k : ℕ)
    (hki : k ≠ i) (hkp : k ≠ p) : (disposeOne p m sts i)[k]? = sts[k]? := by
  unfold disposeOne
  cases hs : sts[i]? with
  | none => rfl
  | some s =>
      dsimp only
      by_cases hc : s.active = true ∧ m = s.end_m
      · rw [if_pos hc]
        by_cases hl : s.item.end_action = "liquidate_to_cash"
        · rw [if_pos hl]
          cases hp : sts[p]? with
          | none =>
              dsimp only
              cases h1 : sts[i]? with
              | none => rfl
              | some s1 => exact List.getElem?_set_ne (Ne.symm hki)
          | some pc =>
              dsimp only
              cases h1 : (sts.set p { pc with value := pc.value + s.value })[i]? with
              | none => exact List.getElem?_set_ne (Ne.symm hkp)
              | some s1 =>
                  rw [List.getElem?_set_ne (Ne.symm hki),
                      List.getElem?_set_ne (Ne.symm hkp)]
        · rw [if_neg hl]
          by_cases hd : s.item.end_action = "drop"
          · rw [if_pos hd]; exact List.getElem?_set_ne (Ne.symm hki)
          · rw [if_neg hd]; exact List.getElem?_set_ne (Ne.symm hki)
      · rw [if_neg hc]

theorem disposeOne_getElem_self (p : ℕ) (m : ℤ) (sts : List AccountState) (i : ℕ)
    (hip : i ≠ p) : (disposeOne p m sts i)[i]? = (sts[i]?).map (localDispose m) := by
  unfold disposeOne localDispose
  cases hs : sts[i]? with
  | none => simp [hs]
  | some s =>
      have hilen : i < sts.length := (List.getElem?_eq_some_iff.mp hs).1
      rw [Option.map_some']
      dsimp only
      by_cases hc : s.active = true ∧ m = s.end_m
      · rw [if_pos hc, if_pos hc]
        by_cases hl : s.item.end_action = "liquidate_to_cash"
        · rw [if_pos hl, if_pos hl]
          cases hp : sts[p]? with
          | none =>
              dsimp only
              rw [hs]
              exact List.getElem?_set_self hilen
          | some pc =>
              dsimp only
              have h1 : (sts.set p { pc with value := pc.value + s.value })[i]?
                  = some s := by
                rw [List.getElem?_set_ne (fun h => hip h.symm)]
                exact hs
              rw [h1]
              exact List.getElem?_set_self (by simpa using hilen)
        · rw [if_neg hl, if_neg hl]
          by_cases hd : s.item.end_action = "drop"
          · rw [if_pos hd, if_pos hd]; exact List.getElem?_set_self hilen
          · rw [if_neg hd, if_neg hd]; exact List.getElem?_set_self hilen
      · rw [if_neg hc, if_neg hc]
        exact hs

theorem foldDispose_getElem_notMem (p : ℕ) (m : ℤ) (k : ℕ) :
    ∀ (l : List ℕ) (sts : List AccountState), k ∉ l → k ≠ p →
      (l.foldl (disposeOne p m) sts)[k]? = sts[k]? := by
  intro l
  induction l with
  | nil => intro sts _ _; rfl
  | cons i rest ih =>
      intro sts hk hkp
      have hki : k ≠ i := fun h => hk (h ▸ List.mem_cons_self i rest)
      have hkr : k ∉ rest := fun h => hk (List.mem_cons_of_mem i h)
      rw [List.foldl_cons, ih _ hkr hkp, disposeOne_getElem_ne p m sts i k hki hkp]

theorem foldDispose_getElem_mem (p : ℕ) (m : ℤ) (k : ℕ) (hkp : k ≠ p) :
    ∀ (l : List ℕ) (sts : List AccountState), l.Nodup → k ∈ l →
      (l.foldl (disposeOne p m) sts)[k]? = (sts[k]?).map (localDispose m) := by
  intro l
  induction l with
  | nil => intro sts _ hk; cases hk
  | cons i rest ih =>
      intro sts hnd hk
      have hir : i ∉ rest := (List.nodup_cons.mp hnd).1
      have hrest : rest.Nodup := (List.nodup_cons.mp hnd).2
      rw [List.foldl_cons]
      rcases List.mem_cons.mp hk with hki | hkr
      · subst hki
        rw [foldDispose_getElem_notMem p m k rest _ hir hkp,
            disposeOne_getElem_self p m sts k hkp]
      · have hki : k ≠ i := fun h => hir (h ▸ hkr)
        rw [ih _ hrest hkr, disposeOne_getElem_ne p m sts i k hki hkp]

theorem disposeAll_getElem_ne (p : ℕ) (m : ℤ) (sts : List AccountState) (k : ℕ)
    (hkp : k ≠ p) : (disposeAll p m sts)[k]? = (sts[k]?).map (localDispose m) := by
  unfold disposeAll
  by_cases hk : k < sts.length
  · exact foldDispose_getElem_mem p m k hkp _ _ (List.nodup_range _)
      (List.mem_range.mpr hk)
  · rw [foldDispose_getElem_notMem p m k _ _ (fun h => hk (List.mem_range.mp h)) hkp,
        List.getElem?_eq_none (Nat.le_of_not_lt hk)]
    rfl

/-- Any account other than the primary cash evolves by the deposit-free
local transition: activation, compounding, own disposition. -/
theorem stepMonth_states_getElem_ne (cfg : PlanConfig) (p : ℕ)
    (inc sp : List CashflowState) (m : ℕ) (st : SimState) (k : ℕ)
    (hkp : k ≠ p) :
    (stepMonth cfg p inc sp m st).1.states[k]? =
      (st.states[k]?).map (localStep (m : ℤ)) := by
  simp only [stepMonth]
  rw [disposeAll_getElem_ne _ _ _ _ hkp, compoundAll_getElem,
      applyCash_states_getElem_ne _ _ _ _ hkp, activateAll_getElem]
  cases st.states[k]? <;> rfl

/-!
Properties of the local transition.
-/

theorem activateOne_active (m : ℤ) (s : AccountState) (hc : s.completed = false)
    (hst : s.start_m ≤ m) : (activateOne m s).active = true := by
  unfold activateOne
  rw [hc]
  by_cases ha : s.active = true
  · simp [ha]
  · simp [ha, hst]

theorem activateOne_fields (m : ℤ) (s : AccountState) :
    (activateOne m s).item = s.item ∧ (activateOne m s).start_m = s.start_m ∧
    (activateOne m s).end_m = s.end_m ∧ (activateOne m s).completed = s.completed ∧
    (activateOne m s).rate_m = s.rate_m := by
  unfold activateOne
  split
  · exact ⟨rfl, rfl, rfl, rfl, rfl⟩
  · split
    · exact ⟨rfl, rfl, rfl, rfl, rfl⟩
    · exact ⟨rfl, rfl, rfl, rfl, rfl⟩

theorem activateOne_of_active (m : ℤ) (s : AccountState) (ha : s.active = true) :
    activateOne m s = s := by
  unfold activateOne
  split
  · rfl
  · rw [if_neg]
    intro h
    exact h.2 ha

theorem compoundOne_fields (m : ℤ) (s : AccountState) :
    (compoundOne m s).item = s.item ∧ (compoundOne m s).start_m = s.start_m ∧
    (compoundOne m s).end_m = s.end_m ∧ (compoundOne m s).completed = s.completed ∧
    (compoundOne m s).active = s.active := by
  unfold compoundOne
  split
  · exact ⟨rfl, rfl, rfl, rfl, rfl⟩
  · exact ⟨rfl, rfl, rfl, rfl, rfl⟩

theorem compoundOne_of_past (m : ℤ) (s : AccountState) (hm : s.end_m < m) :
    compoundOne m s = s := by
  unfold compoundOne
  rw [if_neg]
  intro h
  exact absurd h.2.2 (not_le.mpr hm)

theorem localDispose_fields (m : ℤ) (s : AccountState) :
    (localDispose m s).item = s.item ∧ (localDispose m s).start_m = s.start_m ∧
    (localDispose m s).end_m = s.end_m ∧ (localDispose m s).value = s.value ∨
    (localDispose m s).item = s.item ∧ (localDispose m s).start_m = s.start_m ∧
    (localDispose m s).end_m = s.end_m := by
  right
  unfold localDispose
  split
  · split
    · exact ⟨rfl, rfl, rfl⟩
    · split
      · exact ⟨rfl, rfl, rfl⟩
      · exact ⟨rfl, rfl, rfl⟩
  · exact ⟨rfl, rfl, rfl⟩

theorem localDispose_keep (m : ℤ) (s : AccountState)
    (hk : s.item.end_action = "keep") :
    (localDispose m s).active = s.active ∧ (localDispose m s).completed = s.completed ∧
    (localDispose m s).value = s.value ∧ (localDispose m s).item = s.item ∧
    (localDispose m s).start_m = s.start_m ∧ (localDispose m s).end_m = s.end_m := by
  unfold localDispose
  have h1 : ¬ s.item.end_action = "liquidate_to_cash" := by rw [hk]; decide
  have h2 : ¬ s.item.end_action = "drop" := by rw [hk]; decide
  repeat' split
  all_goals exact ⟨rfl, rfl, rfl, rfl, rfl, rfl⟩

theorem localDispose_of_notEnd (m : ℤ) (s : AccountState) (hm : m ≠ s.end_m) :
    localDispose m s = s := by
  unfold localDispose
  rw [if_neg]
  intro h
  exact hm h.2

/-- A keep account that has reached its start month is active and not
completed after the local transition, with identifying fields unchanged. -/
theorem localStep_keep_activates (m : ℤ) (s : AccountState)
    (hk : s.item.end_action = "keep") (hc : s.completed = false)
    (hst : s.start_m ≤ m) :
    (localStep m s).active = true ∧ (localStep m s).completed = false ∧
    (localStep m s).item = s.item ∧ (localStep m s).start_m = s.start_m ∧
    (localStep m s).end_m = s.end_m := by
  unfold localStep
  set s1 := activateOne m s with hs1
  obtain ⟨a_item, a_start, a_end, a_comp, _⟩ := activateOne_fields m s
  have ha1 : s1.active = true := activateOne_active m s hc hst
  set s2 := compoundOne (m : ℤ) s1 with hs2
  obtain ⟨c_item, c_start, c_end, c_comp, c_act⟩ := compoundOne_fields m s1
  have hk2 : s2.item.end_action = "keep" := by rw [c_item, a_item, hk]
  obtain ⟨d_act, d_comp, _, d_item, d_start, d_end⟩ := localDispose_keep m s2 hk2
  refine ⟨?_, ?_, ?_, ?_, ?_⟩
  · rw [d_act, c_act, ha1]
  · rw [d_comp, c_comp, a_comp, hc]
  · rw [d_item, c_item, a_item]
  · rw [d_start, c_start, a_start]
  · rw [d_end, c_end, a_end]

/-- After its end month, an active account is left untouched by the local
transition. -/
theorem localStep_frozen (m : ℤ) (s : AccountState) (ha : s.active = true)
    (hm : s.end_m < m) : localStep m s = s := by
  unfold localStep
  rw [activateOne_of_active m s ha, compoundOne_of_past m s hm,
      localDispose_of_notEnd m s (by omega)]

/-- The deposit into the primary cash made when a distinct account at index
i liquidates: the primary cash balance increases by exactly the liquidated
balance. -/
theorem disposeOne_getElem_primary (p : ℕ) (m : ℤ) (sts : List AccountState)
    (i : ℕ) (s pc : AccountState) (hip : i ≠ p) (hs : sts[i]? = some s)
    (hp : sts[p]? = some pc) (ha : s.active = true) (hm : m = s.end_m)
    (hl : s.item.end_action = "liquidate_to_cash") :
    (disposeOne p m sts i)[p]? = some { pc with value := pc.value + s.value } := by
  unfold disposeOne
  rw [hs]
  dsimp only
  rw [if_pos ⟨ha, hm⟩, if_pos hl, hp]
  dsimp only
  have hplen : p < sts.length := (List.getElem?_eq_some_iff.mp hp).1
  have h1 : (sts.set p { pc with value := pc.value + s.value })[i]? = some s := by
    rw [List.getElem?_set_ne (fun h => hip h.symm)]
    exact hs
  rw [h1]
  rw [List.getElem?_set_ne hip, List.getElem?_set_self (by simpa using hplen)]

/-- Claim C4 (amended): when an account distinct from the primary cash
account liquidates at its end month, its disposition zeroes its balance,
credits the primary cash with exactly that balance, and conserves the sum
of the two balances. -/
theorem liquidation_conserves_value (p i : ℕ) (m : ℤ) (sts : List AccountState)
    (s pc : AccountState) (hip : i ≠ p) (hs : sts[i]? = some s)
    (hp : sts[p]? = some pc) (ha : s.active = true) (hm : m = s.end_m)
    (hl : s.item.end_action = "liquidate_to_cash") :
    ∃ s2 pc2, (disposeOne p m sts i)[i]? = some s2 ∧
      (disposeOne p m sts i)[p]? = some pc2 ∧
      s2.value = 0 ∧ pc2.value = pc.value + s.value ∧
      s2.value + pc2.value = s.value + pc.value := by
  refine ⟨localDispose m s, { pc with value := pc.value + s.value }, ?_, ?_, ?_, rfl, ?_⟩
  · rw [disposeOne_getElem_self p m sts i hip, hs]
    rfl
  · exact disposeOne_getElem_primary p m sts i s pc hip hs hp ha hm hl
  · unfold localDispose
    rw [if_pos ⟨ha, hm⟩, if_pos hl]
  · unfold localDispose
    rw [if_pos ⟨ha, hm⟩, if_pos hl]
    show (0 : ℚ) + (pc.value + s.value) = s.value + pc.value
    ring

/-- Claim C4 witness: a cash account at index 0 and a liquidating investment
account at index 1, processed at month 3. -/
theorem liquidation_conserves_value_witness :
    ∃ s2 pc2,
      (disposeOne 0 3 [stCashW, stFundW] 1)[1]? = some s2 ∧
      (disposeOne 0 3 [stCashW, stFundW] 1)[0]? = some pc2 ∧
      s2.value = 0 ∧ pc2.value = stCashW.value + stFundW.value ∧
      s2.value + pc2.value = stFundW.value + stCashW.value :=
  liquidation_conserves_value 0 1 3 [stCashW, stFundW] stFundW stCashW
    (by decide) rfl rfl rfl rfl rfl

/-- Claim C10: with at least one cash-category account (in particular when
there are two or more), the primary index is the first cash account in plan
order and no virtual account is inserted; every index other than the primary
evolves by the deposit-free local transition; the cash application credits
the primary with the flushed buffer plus the net cash flow and empties the
buffer; and every liquidation deposit lands on the primary index. -/
theorem primary_cash_unique_sink (cfg : PlanConfig) (st : SimState) (m k : ℕ)
    (hkp : k ≠ primaryIdx cfg)
    (hcash : 2 ≤ (cfg.accounts.filter
      (fun a => a.normalized_category = "cash")).length) :
    ((initStates cfg).1 = initAccounts cfg ∧
      cfg.accounts.findIdx? (fun a => a.normalized_category = "cash") =
        some (primaryIdx cfg)) ∧
    (stepMonth cfg (primaryIdx cfg) (incomeStates cfg) (spendingStates cfg)
        m st).1.states[k]? = (st.states[k]?).map (localStep (m : ℤ)) ∧
    (∀ (net : ℚ) (pc : AccountState), st.states[primaryIdx cfg]? = some pc →
      pc.active = true →
      (applyCash (primaryIdx cfg) net st).states =
        st.states.set (primaryIdx cfg)
          { pc with value := pc.value + st.buffer + net } ∧
      (applyCash (primaryIdx cfg) net st).buffer = 0) ∧
    (∀ (sts : List AccountState) (i : ℕ) (s pc : AccountState),
      i ≠ primaryIdx cfg → sts[i]? = some s → sts[primaryIdx cfg]? = some pc →
      s.active = true → (m : ℤ) = s.end_m →
      s.item.end_action = "liquidate_to_cash" →
      (disposeOne (primaryIdx cfg) (m : ℤ) sts i)[primaryIdx cfg]? =
        some { pc with value := pc.value + s.value }) := by
  have hex : ∃ a, a ∈ cfg.accounts ∧
      decide (a.normalized_category = "cash") = true := by
    have hne : cfg.accounts.filter (fun a => a.normalized_category = "cash") ≠ [] := by
      intro h
      rw [h] at hcash
      exact absurd hcash (by decide)
    obtain ⟨a, ha⟩ := List.exists_mem_of_ne_nil _ hne
    exact ⟨a, (List.mem_filter.mp ha).1, (List.mem_filter.mp ha).2⟩
  have hj := List.findIdx?_eq_some_of_exists hex
  set j := cfg.accounts.findIdx (fun a => a.normalized_category = "cash") with hjdef
  have hmap : (initAccounts cfg).findIdx?
      (fun s => s.item.normalized_category = "cash") =
      cfg.accounts.findIdx? (fun a => a.normalized_category = "cash") := by
    unfold initAccounts
    rw [List.findIdx?_map]
    rfl
  have hinit : initStates cfg = (initAccounts cfg, j) := by
    unfold initStates _ensure_primary_cash
    rw [hmap, hj]
  have hpj : primaryIdx cfg = j := by unfold primaryIdx; rw [hinit]
  refine ⟨⟨?_, ?_⟩, ?_, ?_, ?_⟩
  · rw [hinit]
  · rw [hpj, hj]
  · exact stepMonth_states_getElem_ne cfg (primaryIdx cfg) _ _ m st k hkp
  · intro net pc hpc hact
    unfold applyCash
    rw [hpc]
    dsimp only
    rw [if_pos hact]
    exact ⟨rfl, rfl⟩
  · intro sts i s pc hip hs hp ha hm hl
    exact disposeOne_getElem_primary _ _ sts i s pc hip hs hp ha hm hl

/-- Claim C10 witness: the two-cash-account plan, index 1 (the second cash
account), month 0, at the initial working state. -/
theorem primary_cash_unique_sink_witness :
    cfgTwoCash.accounts.findIdx? (fun a => a.normalized_category = "cash") =
      some (primaryIdx cfgTwoCash) ∧
    (stepMonth cfgTwoCash (primaryIdx cfgTwoCash) (incomeStates cfgTwoCash)
        (spendingStates cfgTwoCash) 0 (stateAt cfgTwoCash 0)).1.states[1]? =
      ((stateAt cfgTwoCash 0).states[1]?).map (localStep 0) := by
  have h := primary_cash_unique_sink cfgTwoCash (stateAt cfgTwoCash 0) 0 1
    (by with_unfolding_all decide) (by with_unfolding_all decide)
  exact ⟨h.1.2, h.2.1⟩

/-!
The frozen-balance invariant for keep accounts other than the primary cash.
-/

theorem build_wf (a : AccountItem) (n : ℕ) :
    0 ≤ (_build_account_state a n).start_m ∧
    (_build_account_state a n).start_m ≤ (_build_account_state a n).end_m ∧
    (_build_account_state a n).completed = false := by
  unfold _build_account_state
  dsimp only
  refine ⟨le_max_left 0 _, ?_, rfl⟩
  by_cases h : (if a.end_year ≤ 0 then (n : ℤ) - 1
      else min (pyRound (a.end_year * 12)) ((n : ℤ) - 1)) <
      max 0 (pyRound (a.start_year * 12))
  · rw [if_pos h]
  · rw [if_neg h]
    exact le_of_not_lt h

theorem initStates_wf (cfg : PlanConfig) (j : ℕ) (s0 : AccountState)
    (hj : (initStates cfg).1[j]? = some s0) :
    0 ≤ s0.start_m ∧ s0.start_m ≤ s0.end_m ∧ s0.completed = false := by
  have hmem : s0 ∈ (initStates cfg).1 := List.getElem?_mem hj
  have hbuilt : ∀ s ∈ (initStates cfg).1,
      0 ≤ s.start_m ∧ s.start_m ≤ s.end_m ∧ s.completed = false := by
    intro s hs
    unfold initStates _ensure_primary_cash at hs
    rcases hfind : (initAccounts cfg).findIdx?
        (fun s => s.item.normalized_category = "cash") with _ | i
    · rw [hfind] at hs
      dsimp only at hs
      rcases List.mem_cons.mp hs with h | h
      · subst h
        exact build_wf _ _
      · obtain ⟨a, _, ha⟩ := List.mem_map.mp h
        rw [← ha]
        exact build_wf _ _
    · rw [hfind] at hs
      dsimp only at hs
      obtain ⟨a, _, ha⟩ := List.mem_map.mp hs
      rw [← ha]
      exact build_wf _ _
  exact hbuilt s0 hmem

theorem localStep_keep_fields (m : ℤ) (s : AccountState)
    (hk : s.item.end_action = "keep") :
    (localStep m s).item = s.item ∧ (localStep m s).start_m = s.start_m ∧
    (localStep m s).end_m = s.end_m ∧ (localStep m s).completed = s.completed := by
  unfold localStep
  obtain ⟨a_item, a_start, a_end, a_comp, _⟩ := activateOne_fields m s
  obtain ⟨c_item, c_start, c_end, c_comp, _⟩ := compoundOne_fields m (activateOne m s)
  have hk2 : (compoundOne m (activateOne m s)).item.end_action = "keep" := by
    rw [c_item, a_item, hk]
  obtain ⟨_, d_comp, _, d_item, d_start, d_end⟩ :=
    localDispose_keep m (compoundOne m (activateOne m s)) hk2
  exact ⟨by rw [d_item, c_item, a_item], by rw [d_start, c_start, a_start],
         by rw [d_end, c_end, a_end], by rw [d_comp, c_comp, a_comp]⟩

theorem keep_invariant (cfg : PlanConfig) (j : ℕ) (s0 : AccountState)
    (hj : (initStates cfg).1[j]? = some s0) (hne : j ≠ primaryIdx cfg)
    (hkeep : s0.item.end_action = "keep") :
    ∀ k : ℕ, ∃ s, (stateAt cfg k).states[j]? = some s ∧ s.item = s0.item ∧
      s.start_m = s0.start_m ∧ s.end_m = s0.end_m ∧ s.completed = false ∧
      (s0.start_m < (k : ℤ) → s.active = true) := by
  obtain ⟨hw0, hw1, hw2⟩ := initStates_wf cfg j s0 hj
  intro k
  induction k with
  | zero =>
      refine ⟨s0, hj, rfl, rfl, rfl, hw2, ?_⟩
      intro h
      exact absurd h (by exact_mod_cast not_lt.mpr hw0)
  | succ k ih =>
      obtain ⟨s, hsj, hitem, hstart, hend, hcomp, hact⟩ := ih
      have hstep : (stateAt cfg (k + 1)).states[j]? = some (localStep (k : ℤ) s) := by
        have := stepMonth_states_getElem_ne cfg (primaryIdx cfg)
          (incomeStates cfg) (spendingStates cfg) k (stateAt cfg k) j hne
        rw [show stateAt cfg (k + 1) = (stepMonth cfg (primaryIdx cfg)
          (incomeStates cfg) (spendingStates cfg) k (stateAt cfg k)).1 from rfl,
          this, hsj]
        rfl
      have hk2 : s.item.end_action = "keep" := by rw [hitem, hkeep]
      obtain ⟨f_item, f_start, f_end, f_comp⟩ := localStep_keep_fields (k : ℤ) s hk2
      refine ⟨localStep (k : ℤ) s, hstep, by rw [f_item, hitem],
        by rw [f_start, hstart], by rw [f_end, hend], by rw [f_comp, hcomp], ?_⟩
      intro hlt
      have hst : s.start_m ≤ (k : ℤ) := by
        rw [hstart]
        have : (k : ℤ) + 1 = ((k + 1 : ℕ) : ℤ) := by push_cast; ring
        omega
      exact (localStep_keep_activates (k : ℤ) s hk2 hcomp hst).1

theorem keep_frozen_chain (cfg : PlanConfig) (j : ℕ) (s0 : AccountState)
    (hj : (initStates cfg).1[j]? = some s0) (hne : j ≠ primaryIdx cfg)
    (hkeep : s0.item.end_action = "keep") :
    ∀ d : ℕ, (stateAt cfg (s0.end_m.toNat + 1 + d)).states[j]? =
      (stateAt cfg (s0.end_m.toNat + 1)).states[j]? := by
  obtain ⟨hw0, hw1, _⟩ := initStates_wf cfg j s0 hj
  have hend : ((s0.end_m.toNat : ℤ)) = s0.end_m :=
    Int.toNat_of_nonneg (le_trans hw0 hw1)
  intro d
  induction d with
  | zero => rfl
  | succ d ih =>
      set k := s0.end_m.toNat + 1 + d with hkdef
      obtain ⟨s, hsj, hitem, hstart, hend2, hcomp, hact⟩ :=
        keep_invariant cfg j s0 hj hne hkeep k
      have hstartk : s0.start_m < (k : ℤ) := by
        have : s0.start_m ≤ s0.end_m := hw1
        omega
      have hactive : s.active = true := hact hstartk
      have hpast : s.end_m < (k : ℤ) := by
        rw [hend2]
        omega
      have hstep : (stateAt cfg (k + 1)).states[j]? = some (localStep (k : ℤ) s) := by
        have := stepMonth_states_getElem_ne cfg (primaryIdx cfg)
          (incomeStates cfg) (spendingStates cfg) k (stateAt cfg k) j hne
        rw [show stateAt cfg (k + 1) = (stepMonth cfg (primaryIdx cfg)
          (incomeStates cfg) (spendingStates cfg) k (stateAt cfg k)).1 from rfl,
          this, hsj]
        rfl
      have : (stateAt cfg (k + 1)).states[j]? = some s := by
        rw [hstep, localStep_frozen (k : ℤ) s hactive hpast]
      calc (stateAt cfg (s0.end_m.toNat + 1 + (d + 1))).states[j]?
          = (stateAt cfg (k + 1)).states[j]? := rfl
        _ = some s := this
        _ = (stateAt cfg k).states[j]? := hsj.symm
        _ = (stateAt cfg (s0.end_m.toNat + 1)).states[j]? := ih

/-- Claim C3 (amended): for every account with end action keep that is not
the primary cash account, every snapshot strictly after its end month up to
the horizon records the same balance for it as the end-month snapshot. -/
theorem keep_account_frozen_after_end (cfg : PlanConfig) (j m : ℕ)
    (s0 : AccountState) (hj : (initStates cfg).1[j]? = some s0)
    (hne : j ≠ primaryIdx cfg) (hkeep : s0.item.end_action = "keep")
    (hm1 : s0.end_m < (m : ℤ)) (hm2 : m < nMonths cfg) :
    ∃ snapM snapE, (simulate_monthly cfg).get? m = some snapM ∧
      (simulate_monthly cfg).get? s0.end_m.toNat = some snapE ∧
      snapM.accountValues[j]? = snapE.accountValues[j]? := by
  obtain ⟨hw0, hw1, _⟩ := initStates_wf cfg j s0 hj
  have hend : ((s0.end_m.toNat : ℤ)) = s0.end_m :=
    Int.toNat_of_nonneg (le_trans hw0 hw1)
  have helt : s0.end_m.toNat < m := by omega
  have hen : s0.end_m.toNat < nMonths cfg := lt_trans helt hm2
  refine ⟨_, _, simulate_get? cfg m hm2, simulate_get? cfg s0.end_m.toNat hen, ?_⟩
  have hvalm : (stepMonth cfg (primaryIdx cfg) (incomeStates cfg)
      (spendingStates cfg) m (stateAt cfg m)).2.accountValues =
      (stateAt cfg (m + 1)).states.map (fun s => (s.item.name, s.value)) := rfl
  have hvale : (stepMonth cfg (primaryIdx cfg) (incomeStates cfg)
      (spendingStates cfg) s0.end_m.toNat (stateAt cfg s0.end_m.toNat)).2.accountValues =
      (stateAt cfg (s0.end_m.toNat + 1)).states.map (fun s => (s.item.name, s.value)) := rfl
  rw [hvalm, hvale, List.getElem?_map, List.getElem?_map]
  have hm1e : m + 1 = s0.end_m.toNat + 1 + (m - s0.end_m.toNat) := by omega
  rw [hm1e, keep_frozen_chain cfg j s0 hj hne hkeep (m - s0.end_m.toNat)]

/-- Claim C3 witness: in the two-account plan the cd account (index 1, end
month 1, end action keep) records the same balance at month 3 as at its end
month. -/
theorem keep_account_frozen_after_end_witness :
    ∃ snapM snapE, (simulate_monthly cfgKeepOther).get? 3 = some snapM ∧
      (simulate_monthly cfgKeepOther).get? stCdW.end_m.toNat = some snapE ∧
      snapM.accountValues[1]? = snapE.accountValues[1]? :=
  keep_account_frozen_after_end cfgKeepOther 1 3 stCdW
    (by with_unfolding_all rfl) (by with_unfolding_all decide) rfl
    (by with_unfolding_all decide) (by with_unfolding_all decide)

/-!
The taxable-investment flag is the category/name predicate computed at
build time, at every reachable state.
-/

theorem flagOK_build (a : AccountItem) (n : ℕ) : FlagOK (_build_account_state a n) := rfl

theorem flagOK_activateOne (m : ℤ) (s : AccountState) (h : FlagOK s) :
    FlagOK (activateOne m s) := by
  unfold activateOne
  split
  · exact h
  · split
    · exact h
    · exact h

theorem flagOK_compoundOne (m : ℤ) (s : AccountState) (h : FlagOK s) :
    FlagOK (compoundOne m s) := by
  unfold compoundOne
  split
  · exact h
  · exact h

theorem flagOK_set_value (sts : List AccountState) (n j : ℕ) (pc : AccountState)
    (v : ℚ) (s' : AccountState)
    (hOK : ∀ (i : ℕ) (s : AccountState), sts[i]? = some s → FlagOK s)
    (hpc : sts[n]? = some pc)
    (hj : (sts.set n { pc with value := v })[j]? = some s') : FlagOK s' := by
  by_cases hjn : j = n
  · subst hjn
    have hlen : j < sts.length := (List.getElem?_eq_some_iff.mp hpc).1
    rw [List.getElem?_set_self (by simpa using hlen)] at hj
    cases hj
    exact hOK j pc hpc
  · rw [List.getElem?_set_ne (fun h => hjn h.symm)] at hj
    exact hOK j s' hj

theorem flagOK_disposeOne (p : ℕ) (m : ℤ) (sts : List AccountState) (i : ℕ)
    (hOK : ∀ (j : ℕ) (s : AccountState), sts[j]? = some s → FlagOK s) :
    ∀ (j : ℕ) (s' : AccountState), (disposeOne p m sts i)[j]? = some s' → FlagOK s' := by
  intro j s' hj
  unfold disposeOne at hj
  cases hs : sts[i]? with
  | none => rw [hs] at hj; exact hOK j s' hj
  | some s =>
      rw [hs] at hj
      dsimp only at hj
      by_cases hc : s.active = true ∧ m = s.end_m
      · rw [if_pos hc] at hj
        by_cases hl : s.item.end_action = "liquidate_to_cash"
        · rw [if_pos hl] at hj
          cases hp : sts[p]? with
          | none =>
              rw [hp] at hj
              dsimp only at hj
              rw [hs] at hj
              dsimp only at hj
              by_cases hji : j = i
              · subst hji
                have hlen : j < sts.length := (List.getElem?_eq_some_iff.mp hs).1
                rw [List.getElem?_set_self (by simpa using hlen)] at hj
                cases hj
                exact hOK j s hs
              · rw [List.getElem?_set_ne (fun h => hji h.symm)] at hj
                exact hOK j s' hj
          | some pc =>
              rw [hp] at hj
              dsimp only at hj
              cases h1 : (sts.set p { pc with value := pc.value + s.value })[i]? with
              | none =>
                  rw [h1] at hj
                  exact flagOK_set_value sts p j pc _ s' hOK hp hj
              | some s1 =>
                  rw [h1] at hj
                  dsimp only at hj
                  by_cases hji : j = i
                  · subst hji
                    have hlen : j < (sts.set p
                        { pc with value := pc.value + s.value }).length :=
                      (List.getElem?_eq_some_iff.mp h1).1
                    rw [List.getElem?_set_self (by simpa using hlen)] at hj
                    cases hj
                    exact flagOK_set_value sts p j pc _ s1 hOK hp h1
                  · rw [List.getElem?_set_ne (fun h => hji h.symm)] at hj
                    exact flagOK_set_value sts p j pc _ s' hOK hp hj
        · rw [if_neg hl] at hj
          by_cases hd : s.item.end_action = "drop"
          · rw [if_pos hd] at hj
            by_cases hji : j = i
            · subst hji
              have hlen : j < sts.length := (List.getElem?_eq_some_iff.mp hs).1
              rw [List.getElem?_set_self (by simpa using hlen)] at hj
              cases hj
              exact hOK j s hs
            · rw [List.getElem?_set_ne (fun h => hji h.symm)] at hj
              exact hOK j s' hj
          · rw [if_neg hd] at hj
            by_cases hji : j = i
            · subst hji
              have hlen : j < sts.length := (List.getElem?_eq_some_iff.mp hs).1
              rw [List.getElem?_set_self (by simpa using hlen)] at hj
              cases hj
              exact hOK j s hs
            · rw [List.getElem?_set_ne (fun h => hji h.symm)] at hj
              exact hOK j s' hj
      · rw [if_neg hc] at hj
        exact hOK j s' hj

theorem flagOK_foldDispose (p : ℕ) (m : ℤ) :
    ∀ (l : List ℕ) (sts : List AccountState),
      (∀ (j : ℕ) (s : AccountState), sts[j]? = some s → FlagOK s) →
      ∀ (j : ℕ) (s' : AccountState),
        (l.foldl (disposeOne p m) sts)[j]? = some s' → FlagOK s' := by
  intro l
  induction l with
  | nil => intro sts hOK j s' hj; exact hOK j s' hj
  | cons i rest ih =>
      intro sts hOK j s' hj
      rw [List.foldl_cons] at hj
      exact ih (disposeOne p m sts i) (flagOK_disposeOne p m sts i hOK) j s' hj

theorem flagOK_applyCash (p : ℕ) (net : ℚ) (st : SimState)
    (hOK : ∀ (j : ℕ) (s : AccountState), st.states[j]? = some s → FlagOK s) :
    ∀ (j : ℕ) (s' : AccountState),
      (applyCash p net st).states[j]? = some s' → FlagOK s' := by
  intro j s' hj
  unfold applyCash at hj
  cases hp : st.states[p]? with
  | none => rw [hp] at hj; exact hOK j s' hj
  | some pc =>
      rw [hp] at hj
      dsimp only at hj
      by_cases ha : pc.active = true
      · rw [if_pos ha] at hj
        dsimp only at hj
        exact flagOK_set_value st.states p j pc _ s' hOK hp hj
      · rw [if_neg ha] at hj
        exact hOK j s' hj

theorem flagOK_stepMonth (cfg : PlanConfig) (p : ℕ) (inc sp : List CashflowState)
    (m : ℕ) (st : SimState)
    (hOK : ∀ (j : ℕ) (s : AccountState), st.states[j]? = some s → FlagOK s) :
    ∀ (j : ℕ) (s' : AccountState),
      (stepMonth cfg p inc sp m st).1.states[j]? = some s' → FlagOK s' := by
  intro j s' hj
  have h1 : ∀ (j : ℕ) (s : AccountState),
      (activateAll (m : ℤ) st.states)[j]? = some s → FlagOK s := by
    intro j2 s2 hj2
    rw [activateAll_getElem] at hj2
    cases hx : st.states[j2]? with
    | none => rw [hx] at hj2; cases hj2
    | some x =>
        rw [hx] at hj2
        cases hj2
        exact flagOK_activateOne _ x (hOK j2 x hx)
  have h2 := flagOK_applyCash p
    (sumCashflow (m : ℤ) inc - 0 -
      (sumTaxableIncome (m : ℤ) inc +
        taxableGrowth (m : ℤ) (activateAll (m : ℤ) st.states)) * cfg.tax_rate)
    { states := activateAll (m : ℤ) st.states, buffer := st.buffer } h1
  have h3 : ∀ (j : ℕ) (s : AccountState),
      (compoundAll (m : ℤ) (applyCash p
        (sumCashflow (m : ℤ) inc - 0 -
          (sumTaxableIncome (m : ℤ) inc +
            taxableGrowth (m : ℤ) (activateAll (m : ℤ) st.states)) * cfg.tax_rate)
        { states := activateAll (m : ℤ) st.states, buffer := st.buffer }).states)[j]? =
        some s → FlagOK s := by
    intro j2 s2 hj2
    rw [compoundAll_getElem] at hj2
    cases hx : (applyCash p _ _).states[j2]? with
    | none => rw [hx] at hj2; cases hj2
    | some x =>
        rw [hx] at hj2
        cases hj2
        exact flagOK_compoundOne _ x (h2 j2 x hx)
  exact flagOK_foldDispose p (m : ℤ) _ _ h3 j s' hj

theorem flagOK_init (cfg : PlanConfig) :
    ∀ (j : ℕ) (s : AccountState), (initStates cfg).1[j]? = some s → FlagOK s := by
  intro j s hj
  have hmem : s ∈ (initStates cfg).1 := List.getElem?_mem hj
  unfold initStates _ensure_primary_cash at hmem
  rcases hfind : (initAccounts cfg).findIdx?
      (fun s => s.item.normalized_category = "cash") with _ | i
  · rw [hfind] at hmem
    dsimp only at hmem
    rcases List.mem_cons.mp hmem with h | h
    · subst h
      exact rfl
    · obtain ⟨a, _, ha⟩ := List.mem_map.mp h
      rw [← ha]
      exact flagOK_build _ _
  · rw [hfind] at hmem
    dsimp only at hmem
    obtain ⟨a, _, ha⟩ := List.mem_map.mp hmem
    rw [← ha]
    exact flagOK_build _ _

theorem flagOK_stateAt (cfg : PlanConfig) (k : ℕ) :
    ∀ (j : ℕ) (s : AccountState), (stateAt cfg k).states[j]? = some s → FlagOK s := by
  induction k with
  | zero => exact flagOK_init cfg
  | succ k ih =>
      exact flagOK_stepMonth cfg (primaryIdx cfg) (incomeStates cfg)
        (spendingStates cfg) k (stateAt cfg k) ih

theorem sum_map_filter {α : Type} (p : α → Bool) (f : α → ℚ) (l : List α) :
    ((l.filter p).map f).sum = (l.map (fun a => if p a then f a else 0)).sum := by
  induction l with
  | nil => rfl
  | cons a l ih =>
      by_cases hp : p a = true
      · simp [List.filter_cons, hp, ih]
      · simp [List.filter_cons, hp, ih]

theorem taxableGrowth_eq_spec (m : ℤ) (l : List AccountState)
    (hOK : ∀ s ∈ l, FlagOK s) : taxableGrowth m l = taxableGrowthSpec m l := by
  unfold taxableGrowth taxableGrowthSpec
  rw [sum_map_filter]
  apply congrArg List.sum
  apply List.map_congr_left
  intro s hsl
  have hFlag : s.taxable_investment =
      (decide (s.item.normalized_category = "investment") &&
        !(strHasSub s.item.name.toLower "hsa")) := hOK s hsl
  have hiff : (s.active = true ∧ ¬ s.completed = true ∧ m ≤ s.end_m ∧
      s.taxable_investment = true) ↔
      ((s.active && !s.completed && decide (m ≤ s.end_m) &&
        decide (s.item.normalized_category = "investment") &&
        !(strHasSub s.item.name.toLower "hsa")) = true) := by
    rw [hFlag]
    simp only [Bool.and_eq_true, Bool.not_eq_true', decide_eq_true_iff]
    constructor
    · rintro ⟨h1, h2, h3, h4, h5⟩
      exact ⟨⟨⟨⟨h1, by simpa using h2⟩, h3⟩, h4⟩, h5⟩
    · rintro ⟨⟨⟨⟨h1, h2⟩, h3⟩, h4⟩, h5⟩
      exact ⟨h1, by simp [h2], h3, h4, h5⟩
  by_cases hc : s.active = true ∧ ¬ s.completed = true ∧ m ≤ s.end_m ∧
      s.taxable_investment = true
  · rw [if_pos hc, if_pos (hiff.mp hc)]
  · rw [if_neg hc, if_neg (fun h => hc (hiff.mpr h))]

/-- Claim C6: every snapshot's taxable investment growth is the sum, over
accounts that are active, not completed, in window, of category investment
and whose lowercased name does not contain hsa, of max 0 (balance times
monthly rate), the balances being those right after the activation pass of
that month; and the tax charged is the flat rate applied to taxable income
plus that growth. -/
theorem taxable_growth_and_tax_formula (cfg : PlanConfig) (m : ℕ) (snap : Snapshot)
    (hs : (simulate_monthly cfg).get? m = some snap) :
    snap.TaxableInvestmentGrowth =
      taxableGrowthSpec (m : ℤ) (activateAll (m : ℤ) (stateAt cfg m).states) ∧
    snap.TotalTax =
      (snap.TaxableIncome + snap.TaxableInvestmentGrowth) * cfg.tax_rate := by
  have hlen : m < nMonths cfg := by
    have h1 : m < (simulate_monthly cfg).length := by
      rw [List.get?_eq_getElem?] at hs
      exact (List.getElem?_eq_some_iff.mp hs).1
    rwa [show (simulate_monthly cfg).length = nMonths cfg from
      simFrom_length cfg _ _ _ _ _ _] at h1
  rw [simulate_get? cfg m hlen] at hs
  cases hs
  constructor
  · show taxableGrowth (m : ℤ) (activateAll (m : ℤ) (stateAt cfg m).states) = _
    apply taxableGrowth_eq_spec
    intro s hsmem
    obtain ⟨j, hj⟩ := List.mem_iff_getElem?.mp hsmem
    rw [activateAll_getElem] at hj
    cases hx : (stateAt cfg m).states[j]? with
    | none => rw [hx] at hj; cases hj
    | some x =>
        rw [hx] at hj
        cases hj
        exact flagOK_activateOne _ x (flagOK_stateAt cfg m j x hx)
  · rfl

/-- Claim C6 witness: the investment plan at month 0. -/
theorem taxable_growth_and_tax_formula_witness :
    (snapAt cfgInvest 0).TaxableInvestmentGrowth =
      taxableGrowthSpec ((0 : ℕ) : ℤ)
        (activateAll ((0 : ℕ) : ℤ) (stateAt cfgInvest 0).states) ∧
    (snapAt cfgInvest 0).TotalTax =
      ((snapAt cfgInvest 0).TaxableIncome +
        (snapAt cfgInvest 0).TaxableInvestmentGrowth) * cfgInvest.tax_rate :=
  taxable_growth_and_tax_formula cfgInvest 0 (snapAt cfgInvest 0)
    (by with_unfolding_all rfl)

/-!
Aggregation layer theorems.
-/

/-- Claim C9: aggregate_period fails exactly on a non-empty input that lacks
one of the four required columns; an empty input is returned unchanged even
when columns are missing, because the empty check runs first. -/
theorem aggregate_error_iff_missing_columns {α : Type} (df : DataFrame α)
    (freq : String) :
    ((∃ e, aggregate_period df freq = Except.error e) ↔
      (df.rows ≠ [] ∧ ∃ c ∈ REQUIRED_COLUMNS, c ∉ df.cols)) ∧
    (df.rows = [] → aggregate_period df freq = Except.ok df) := by
  constructor
  case right =>
    intro h
    unfold aggregate_period
    rw [if_pos (List.isEmpty_iff.mpr h)]
  unfold aggregate_period
  by_cases hempty : df.rows.isEmpty = true
  · rw [if_pos hempty]
    simp only [List.isEmpty_iff] at hempty
    constructor
    · rintro ⟨e, he⟩
      cases he
    · rintro ⟨h, _⟩
      exact absurd hempty h
  · rw [if_neg hempty]
    simp only [List.isEmpty_iff] at hempty
    unfold _prepare
    by_cases hm : REQUIRED_COLUMNS.filter (fun c => c ∉ df.cols) ≠ []
    · rw [if_pos hm]
      dsimp only
      constructor
      · intro _
        refine ⟨hempty, ?_⟩
        rcases hx : REQUIRED_COLUMNS.filter (fun c => c ∉ df.cols) with _ | ⟨c, rest⟩
        · exact absurd hx hm
        · have hc : c ∈ REQUIRED_COLUMNS.filter (fun c => c ∉ df.cols) := by
            rw [hx]; exact List.mem_cons_self c rest
          have := List.mem_filter.mp hc
          exact ⟨c, this.1, by simpa using this.2⟩
      · intro _
        exact ⟨_, rfl⟩
    · rw [if_neg hm]
      dsimp only
      constructor
      · rintro ⟨e, he⟩
        by_cases hq : (if freq = "" then "M" else freq).toUpper = "Q"
        · rw [if_pos hq] at he
          cases he
        · rw [if_neg hq] at he
          by_cases hy : (if freq = "" then "M" else freq).toUpper = "Y"
          · rw [if_pos hy] at he
            cases he
          · rw [if_neg hy] at he
            cases he
      · rintro ⟨_, c, hc1, hc2⟩
        rw [not_ne_iff] at hm
        have : c ∈ REQUIRED_COLUMNS.filter (fun c => c ∉ df.cols) :=
          List.mem_filter.mpr ⟨hc1, by simpa using hc2⟩
        rw [hm] at this
        cases this

theorem sorted_getLast?_max {α : Type} {r : α → α → Prop} {L : List α}
    (hs : List.Sorted r L) {x : α} (h : L.getLast? = some x) :
    x ∈ L ∧ ∀ y ∈ L, y = x ∨ r y x := by
  obtain ⟨ys, rfl⟩ := List.getLast?_eq_some_iff.mp h
  constructor
  · exact List.mem_append.mpr (Or.inr (List.mem_singleton.mpr rfl))
  · intro y hy
    rcases List.mem_append.mp hy with hy1 | hy2
    · right
      exact (List.pairwise_append.mp hs).2.2 y hy1 x (List.mem_singleton.mpr rfl)
    · left
      exact List.mem_singleton.mp hy2

theorem filterMap_keys_eq {α : Type} :
    ∀ (ks : List (String × ℤ)) (f : String × ℤ → Option (Row α)),
      (∀ k ∈ ks, ∃ r, f k = some r ∧ keyOf r = k) →
      ((ks.filterMap f).map keyOf) = ks := by
  intro ks
  induction ks with
  | nil => intro f _; rfl
  | cons k rest ih =>
      intro f hf
      obtain ⟨r, hr, hk⟩ := hf k (List.mem_cons_self k rest)
      rw [List.filterMap_cons, hr, List.map_cons, hk,
        ih f (fun k2 hk2 => hf k2 (List.mem_cons_of_mem k hk2))]

theorem rowLe_decorateQ {α : Type} (a b : Row α) (h : rowLe a b) :
    rowLe (decorateQ a) (decorateQ b) := h

theorem keyOf_decorateQ {α : Type} (r : Row α) :
    keyOf (decorateQ r) = (r.Scenario, Int.fdiv r.MonthIndex 3) := rfl

/-- The rows produced by the Q branch before grouping: sorted input rows
with the quarterly period columns assigned. -/
theorem aggregate_Q_eq {α : Type} (df : DataFrame α) (hne : df.rows ≠ [])
    (hcols : ∀ c ∈ REQUIRED_COLUMNS, c ∈ df.cols) :
    aggregate_period df "Q" = Except.ok
      { cols := addCol (addCol df.cols "PeriodValue") "Period"
        rows := groupLast ((List.insertionSort rowLe df.rows).map decorateQ) } := by
  unfold aggregate_period
  rw [if_neg (by simpa [List.isEmpty_iff] using hne)]
  have hmiss : REQUIRED_COLUMNS.filter (fun c => c ∉ df.cols) = [] :=
    List.filter_eq_nil_iff.mpr (fun c hc => by simpa using hcols c hc)
  unfold _prepare
  simp only [hmiss]
  with_unfolding_all rfl

/-- Claim C7: quarterly aggregation groups the rows of each scenario by
month_index // 3, emits exactly one row per bucket, labels it with the
calendar year and quarter, and takes all fields from the row of the bucket
with the maximal month index. -/
theorem aggregate_quarterly_partition {α : Type} (df : DataFrame α)
    (hne : df.rows ≠ []) (hcols : ∀ c ∈ REQUIRED_COLUMNS, c ∈ df.cols) :
    ∃ out, aggregate_period df "Q" = Except.ok out ∧
      (∀ r ∈ out.rows, ∃ r0 ∈ df.rows, r = decorateQ r0 ∧
        r.Period = toString r0.CalendarYear ++ " Q" ++
          toString (Int.fdiv (r0.MonthInYear - 1) 3 + 1) ∧
        r.PeriodValue = Int.fdiv r0.MonthIndex 3 ∧
        (∀ r1 ∈ df.rows, r1.Scenario = r0.Scenario →
          Int.fdiv r1.MonthIndex 3 = Int.fdiv r0.MonthIndex 3 →
          r1.MonthIndex ≤ r0.MonthIndex)) ∧
      ((out.rows.map keyOf).Nodup) ∧
      (∀ r0 ∈ df.rows, ∃ r ∈ out.rows, r.Scenario = r0.Scenario ∧
        r.PeriodValue = Int.fdiv r0.MonthIndex 3) := by
  have hLperm : List.Perm (List.insertionSort rowLe df.rows) df.rows :=
    List.perm_insertionSort rowLe df.rows
  have hLsorted : (List.insertionSort rowLe df.rows).Sorted rowLe :=
    List.sorted_insertionSort rowLe df.rows
  set L := List.insertionSort rowLe df.rows with hLdef
  set rows1 := L.map decorateQ with hrows1
  have hsorted1 : rows1.Sorted rowLe :=
    List.Pairwise.map decorateQ rowLe_decorateQ hLsorted
  set keys := List.insertionSort keyLe (rows1.map keyOf).dedup with hkeysdef
  have hgroup : groupLast rows1 =
      keys.filterMap (fun k => (rows1.filter (fun r => keyOf r = k)).getLast?) := rfl
  have hkeysmem : ∀ k ∈ keys, ∃ r', r' ∈ rows1 ∧ keyOf r' = k := by
    intro k hk
    have : k ∈ (rows1.map keyOf).dedup :=
      (List.perm_insertionSort keyLe _).mem_iff.mp hk
    have : k ∈ rows1.map keyOf := List.mem_dedup.mp this
    obtain ⟨r', hr', hk'⟩ := List.mem_map.mp this
    exact ⟨r', hr', hk'⟩
  have hfilter_some : ∀ k ∈ keys,
      ∃ r, (rows1.filter (fun r => keyOf r = k)).getLast? = some r ∧ keyOf r = k := by
    intro k hk
    obtain ⟨r', hr', hk'⟩ := hkeysmem k hk
    have hmemf : r' ∈ rows1.filter (fun r => keyOf r = k) :=
      List.mem_filter.mpr ⟨hr', decide_eq_true hk'⟩
    have hnef : rows1.filter (fun r => keyOf r = k) ≠ [] :=
      List.ne_nil_of_mem hmemf
    obtain ⟨r, hr⟩ := Option.isSome_iff_exists.mp (List.getLast?_isSome.mpr hnef)
    refine ⟨r, hr, ?_⟩
    have : r ∈ rows1.filter (fun r => keyOf r = k) :=
      (sorted_getLast?_max (hsorted1.filter _) hr).1
    exact of_decide_eq_true (List.mem_filter.mp this).2
  have hmapkeys : (groupLast rows1).map keyOf = keys := by
    rw [hgroup]
    exact filterMap_keys_eq keys _ hfilter_some
  refine ⟨_, aggregate_Q_eq df hne hcols, ?_, ?_, ?_⟩
  · intro r hr
    rw [hgroup] at hr
    obtain ⟨k, hk, hsome⟩ := List.mem_filterMap.mp hr
    obtain ⟨hrfil, hmax⟩ := sorted_getLast?_max (hsorted1.filter _) hsome
    have hrmem : r ∈ rows1 := List.mem_of_mem_filter hrfil
    have hrkey : keyOf r = k := of_decide_eq_true (List.mem_filter.mp hrfil).2
    obtain ⟨r0, hr0L, hr0⟩ := List.mem_map.mp hrmem
    refine ⟨r0, hLperm.mem_iff.mp hr0L, hr0.symm, ?_, ?_, ?_⟩
    · rw [← hr0]; rfl
    · rw [← hr0]; rfl
    · intro r1 hr1 hsc hdv
      have hr1L : r1 ∈ L := hLperm.mem_iff.mpr hr1
      have hd1 : decorateQ r1 ∈ rows1 := List.mem_map_of_mem decorateQ hr1L
      have hkey1 : keyOf (decorateQ r1) = k := by
        rw [keyOf_decorateQ, hsc, hdv, ← hrkey, ← hr0, keyOf_decorateQ]
      have hfil1 : decorateQ r1 ∈ rows1.filter (fun r => keyOf r = k) :=
        List.mem_filter.mpr ⟨hd1, decide_eq_true hkey1⟩
      rcases hmax _ hfil1 with heq | hle
      · have : r1.MonthIndex = r0.MonthIndex := by
          have h1 : (decorateQ r1).MonthIndex = r.MonthIndex := by rw [heq]
          rw [← hr0] at h1
          exact h1
        exact le_of_eq this
      · rcases hle with hlt | ⟨_, hmi⟩
        · exfalso
          have hsceq : (decorateQ r1).Scenario = r.Scenario := by
            show r1.Scenario = r.Scenario
            rw [hsc, ← hr0]
            rfl
          rw [hsceq] at hlt
          exact lt_irrefl _ hlt
        · have h1 : (decorateQ r1).MonthIndex = r1.MonthIndex := rfl
          have h2 : r.MonthIndex = r0.MonthIndex := by rw [← hr0]; rfl
          rw [h1, h2] at hmi
          exact hmi
  · show ((groupLast rows1).map keyOf).Nodup
    rw [hmapkeys]
    exact ((List.perm_insertionSort keyLe _).nodup_iff).mpr (List.nodup_dedup _)
  · intro r0 hr0
    have hr0L : r0 ∈ L := hLperm.mem_iff.mpr hr0
    have hd0 : decorateQ r0 ∈ rows1 := List.mem_map_of_mem decorateQ hr0L
    have hk0 : keyOf (decorateQ r0) ∈ keys := by
      rw [hkeysdef]
      exact (List.perm_insertionSort keyLe _).mem_iff.mpr
        (List.mem_dedup.mpr (List.mem_map_of_mem keyOf hd0))
    rw [← hmapkeys] at hk0
    obtain ⟨r, hrg, hrk⟩ := List.mem_map.mp hk0
    refine ⟨r, hrg, ?_, ?_⟩
    · have := congrArg Prod.fst hrk
      simpa [keyOf, keyOf_decorateQ] using this
    · have := congrArg Prod.snd hrk
      simpa [keyOf, keyOf_decorateQ] using this

/-- Claim C7 witness: six months of one scenario produce exactly two period
rows, each the month-index-maximal row of its quarter bucket, labelled
2024 Q1 and 2024 Q2. -/
theorem aggregate_quarterly_partition_witness :
    (∃ out, aggregate_period dfSixMonths "Q" = Except.ok out ∧
      (∀ r ∈ out.rows, ∃ r0 ∈ dfSixMonths.rows, r = decorateQ r0 ∧
        r.Period = toString r0.CalendarYear ++ " Q" ++
          toString (Int.fdiv (r0.MonthInYear - 1) 3 + 1) ∧
        r.PeriodValue = Int.fdiv r0.MonthIndex 3 ∧
        (∀ r1 ∈ dfSixMonths.rows, r1.Scenario = r0.Scenario →
          Int.fdiv r1.MonthIndex 3 = Int.fdiv r0.MonthIndex 3 →
          r1.MonthIndex ≤ r0.MonthIndex)) ∧
      ((out.rows.map keyOf).Nodup) ∧
      (∀ r0 ∈ dfSixMonths.rows, ∃ r ∈ out.rows, r.Scenario = r0.Scenario ∧
        r.PeriodValue = Int.fdiv r0.MonthIndex 3)) ∧
    ((aggregate_period dfSixMonths "Q").toOption.map (fun out =>
        out.rows.map (fun r => (r.MonthIndex, r.Period, r.payload)))) =
      some [(2, "2024 Q1", 200), (5, "2024 Q2", 500)] :=
  ⟨aggregate_quarterly_partition dfSixMonths (by with_unfolding_all decide)
    (by with_unfolding_all decide), by with_unfolding_all rfl⟩

theorem addCol_mem {cols : List String} {c : String} (d : String) (h : c ∈ cols) :
    c ∈ addCol cols d := by
  unfold addCol
  split
  · exact h
  · exact List.mem_append.mpr (Or.inl h)

theorem addCol_self (cols : List String) (c : String) : c ∈ addCol cols c := by
  unfold addCol
  split
  · assumption
  · exact List.mem_append.mpr (Or.inr (List.mem_singleton.mpr rfl))

theorem addCol_of_mem {cols : List String} {c : String} (h : c ∈ cols) :
    addCol cols c = cols := by
  unfold addCol
  rw [if_pos h]

theorem mem_of_getLast?_eq {α : Type} {L : List α} {x : α}
    (h : L.getLast? = some x) : x ∈ L := by
  obtain ⟨ys, rfl⟩ := List.getLast?_eq_some_iff.mp h
  exact List.mem_append.mpr (Or.inr (List.mem_singleton.mpr rfl))

theorem mem_groupLast_sub {α : Type} {rows : List (Row α)} {r : Row α}
    (h : r ∈ groupLast rows) : r ∈ rows := by
  obtain ⟨k, _, hsome⟩ := List.mem_filterMap.mp h
  exact List.mem_of_mem_filter (mem_of_getLast?_eq hsome)

theorem groupLast_map_keyOf {α : Type} (rows : List (Row α)) :
    (groupLast rows).map keyOf =
      List.insertionSort keyLe (rows.map keyOf).dedup := by
  apply filterMap_keys_eq
  intro k hk
  have hk2 : k ∈ rows.map keyOf :=
    List.mem_dedup.mp ((List.perm_insertionSort keyLe _).mem_iff.mp hk)
  obtain ⟨r', hr', hkr⟩ := List.mem_map.mp hk2
  have hmemf : r' ∈ rows.filter (fun r => keyOf r = k) :=
    List.mem_filter.mpr ⟨hr', decide_eq_true hkr⟩
  obtain ⟨r, hr⟩ := Option.isSome_iff_exists.mp
    (List.getLast?_isSome.mpr (List.ne_nil_of_mem hmemf))
  refine ⟨r, hr, ?_⟩
  exact of_decide_eq_true (List.mem_filter.mp (mem_of_getLast?_eq hr)).2

theorem filterMap_last_nodup {α : Type} :
    ∀ rows : List (Row α), (rows.map keyOf).Nodup →
      (rows.map keyOf).filterMap
        (fun k => (rows.filter (fun r => keyOf r = k)).getLast?) = rows := by
  intro rows
  induction rows with
  | nil => intro _; rfl
  | cons r rest ih =>
      intro hnd
      rw [List.map_cons] at hnd
      have hnotin : keyOf r ∉ rest.map keyOf := (List.nodup_cons.mp hnd).1
      have hndrest : (rest.map keyOf).Nodup := (List.nodup_cons.mp hnd).2
      rw [List.map_cons, List.filterMap_cons]
      have hfilr : (r :: rest).filter (fun x => keyOf x = keyOf r) = [r] := by
        rw [List.filter_cons]
        rw [if_pos (by simp)]
        congr 1
        rw [List.filter_eq_nil_iff]
        intro x hx hpx
        exact hnotin (of_decide_eq_true hpx ▸ List.mem_map_of_mem keyOf hx)
      rw [hfilr]
      show r :: List.filterMap _ (rest.map keyOf) = r :: rest
      congr 1
      rw [List.filterMap_congr (g := fun k => (rest.filter (fun x => keyOf x = k)).getLast?)]
      · exact ih hndrest
      · intro k hkmem
        have hne : ¬ (keyOf r = k) := by
          intro h
          exact hnotin (h ▸ hkmem)
        rw [List.filter_cons, if_neg (by simpa using hne)]

theorem groupLast_of_nodup_sorted {α : Type} (rows : List (Row α))
    (hnd : (rows.map keyOf).Nodup) (hsk : (rows.map keyOf).Sorted keyLe) :
    groupLast rows = rows := by
  unfold groupLast
  rw [List.dedup_eq_self.mpr hnd, List.Sorted.insertionSort_eq hsk]
  exact filterMap_last_nodup rows hnd

theorem decorateQ_idem {α : Type} (r : Row α) :
    decorateQ (decorateQ r) = decorateQ r := rfl

theorem fdiv3_mono {a b : ℤ} (h : a ≤ b) : Int.fdiv a 3 ≤ Int.fdiv b 3 := by
  rw [Int.fdiv_eq_ediv _ (by decide), Int.fdiv_eq_ediv _ (by decide)]
  exact Int.ediv_le_ediv (by decide) h

theorem rows_sorted_of_keys {α : Type} (rows : List (Row α))
    (hP : ∀ r ∈ rows, r.PeriodValue = Int.fdiv r.MonthIndex 3)
    (hsk : (rows.map keyOf).Sorted keyLe) (hnd : (rows.map keyOf).Nodup) :
    rows.Sorted rowLe := by
  have h1 : List.Pairwise (fun a b : Row α => keyLe (keyOf a) (keyOf b)) rows :=
    List.pairwise_map.mp hsk
  have h2 : List.Pairwise (fun a b : Row α => keyOf a ≠ keyOf b) rows :=
    List.pairwise_map.mp hnd
  refine List.Pairwise.imp_of_mem ?_ (h1.and h2)
  intro a b ha hb hab
  obtain ⟨hle, hne⟩ := hab
  rcases hle with hlt | ⟨hs, hpv⟩
  · exact Or.inl hlt
  · right
    refine ⟨hs, ?_⟩
    by_contra hmi
    have hba : b.MonthIndex ≤ a.MonthIndex := le_of_not_le hmi
    have hfd : Int.fdiv b.MonthIndex 3 ≤ Int.fdiv a.MonthIndex 3 := fdiv3_mono hba
    rw [← hP a ha, ← hP b hb] at hfd
    have hpveq : a.PeriodValue = b.PeriodValue := le_antisymm hpv hfd
    exact hne (Prod.ext hs hpveq)

/-- Claim C8: quarterly aggregation is idempotent — re-aggregating the
output of aggregate_period at frequency Q returns that output unchanged. -/
theorem aggregate_quarterly_idempotent {α : Type} (df : DataFrame α) :
    (aggregate_period df "Q").bind (fun out => aggregate_period out "Q") =
      aggregate_period df "Q" := by
  by_cases hemp : df.rows.isEmpty = true
  · have h1 : aggregate_period df "Q" = Except.ok df := by
      unfold aggregate_period
      rw [if_pos hemp]
    rw [h1]
    show aggregate_period df "Q" = Except.ok df
    exact h1
  · by_cases hmiss : REQUIRED_COLUMNS.filter (fun c => c ∉ df.cols) = []
    · have hcols : ∀ c ∈ REQUIRED_COLUMNS, c ∈ df.cols := by
        intro c hc
        have := List.filter_eq_nil_iff.mp hmiss c hc
        simpa using this
      have hne : df.rows ≠ [] := by simpa [List.isEmpty_iff] using hemp
      have h1 := aggregate_Q_eq df hne hcols
      rw [h1]
      show aggregate_period
        ({ cols := addCol (addCol df.cols "PeriodValue") "Period"
           rows := groupLast ((List.insertionSort rowLe df.rows).map decorateQ) } :
          DataFrame α) "Q" = _
      set rows1 := (List.insertionSort rowLe df.rows).map decorateQ with hrows1
      set out : DataFrame α :=
        { cols := addCol (addCol df.cols "PeriodValue") "Period"
          rows := groupLast rows1 } with hout
      have hkeys : out.rows.map keyOf =
          List.insertionSort keyLe (rows1.map keyOf).dedup := groupLast_map_keyOf rows1
      have hnd : (out.rows.map keyOf).Nodup := by
        rw [hkeys]
        exact ((List.perm_insertionSort keyLe _).nodup_iff).mpr (List.nodup_dedup _)
      have hsk : (out.rows.map keyOf).Sorted keyLe := by
        rw [hkeys]
        exact List.sorted_insertionSort keyLe _
      have hP : ∀ r ∈ out.rows, r.PeriodValue = Int.fdiv r.MonthIndex 3 ∧
          decorateQ r = r := by
        intro r hr
        have : r ∈ rows1 := mem_groupLast_sub hr
        obtain ⟨r0, _, hr0⟩ := List.mem_map.mp this
        subst hr0
        exact ⟨rfl, decorateQ_idem r0⟩
      have hsorted_out : out.rows.Sorted rowLe :=
        rows_sorted_of_keys out.rows (fun r hr => (hP r hr).1) hsk hnd
      have hne2 : out.rows ≠ [] := by
        obtain ⟨r0, hr0⟩ := List.exists_mem_of_ne_nil _ hne
        have hr0L : r0 ∈ List.insertionSort rowLe df.rows :=
          (List.perm_insertionSort rowLe df.rows).mem_iff.mpr hr0
        have hd0 : decorateQ r0 ∈ rows1 := List.mem_map_of_mem decorateQ hr0L
        have hk0 : keyOf (decorateQ r0) ∈ out.rows.map keyOf := by
          rw [hkeys]
          exact (List.perm_insertionSort keyLe _).mem_iff.mpr
            (List.mem_dedup.mpr (List.mem_map_of_mem keyOf hd0))
        intro hnil
        rw [hnil] at hk0
        cases hk0
      have hcols2 : ∀ c ∈ REQUIRED_COLUMNS, c ∈ out.cols := by
        intro c hc
        exact addCol_mem _ (addCol_mem _ (hcols c hc))
      have h2 := aggregate_Q_eq out hne2 hcols2
      rw [h2]
      have hcpv : "PeriodValue" ∈ out.cols :=
        addCol_mem _ (addCol_self df.cols "PeriodValue")
      have hcolseq : addCol (addCol out.cols "PeriodValue") "Period" = out.cols := by
        rw [addCol_of_mem hcpv, addCol_of_mem (addCol_self _ "Period")]
      have hmapid : out.rows.map decorateQ = out.rows := by
        have h3 : out.rows.map decorateQ = out.rows.map id :=
          List.map_congr_left (fun r hr => (hP r hr).2)
        rw [h3, List.map_id]
      have hrowseq : groupLast ((List.insertionSort rowLe out.rows).map decorateQ) =
          out.rows := by
        rw [List.Sorted.insertionSort_eq hsorted_out, hmapid]
        exact groupLast_of_nodup_sorted out.rows hnd hsk
      rw [hcolseq, hrowseq]
    · have h1 : aggregate_period df "Q" = Except.error
          ("Missing required columns: " ++
            ", ".intercalate (REQUIRED_COLUMNS.filter (fun c => c ∉ df.cols))) := by
        unfold aggregate_period
        rw [if_neg hemp]
        unfold _prepare
        dsimp only
        rw [if_pos hmiss]
      rw [h1]
      rfl
